import Mathlib

/-!
Shallow embedding of the team_me CRM (src/team_me_firebase.py and
src/blog/routes.py): Firestore documents are association lists of field
values, collections are association lists of documents keyed by id, the
Flask session is an explicit record, and every route handler is a pure
function from its inputs and the store state to a response and a new
state.  Clock readings (datetime.now().isoformat()) and generated ids
and uuid suffixes are threaded in as explicit parameters.
-/

deriving instance DecidableEq for Except

/-- Firestore field values occurring in this application: strings,
lists of strings (photo_urls, categories) and Python None. -/
inductive Val where
  | str (s : String)
  | list (l : List String)
  | none
deriving DecidableEq, Repr

/-- A Firestore document / Python dict.  Lookup takes the first match,
so an entry earlier in the list shadows later ones. -/
abbrev Doc : Type := List (String × Val)

/-- Models Python d.get(k): None when the key is absent. -/
def Doc.get? (d : Doc) (k : String) : Option Val :=
  List.lookup k d

/-- Models Python dict.update(upd) on old: the updated entries win on
lookup.  Also models a Firestore doc_ref.update merge. -/
def dictUpdate (old upd : Doc) : Doc := upd ++ old

/-- Models doc_to_dict: the document data with the document id stored
under the key id (the assignment overrides any stored id field). -/
def doc_to_dict (id : String) (d : Doc) : Doc := ("id", Val.str id) :: d

/-- A Firestore collection: documents keyed by their id. -/
abbrev Coll : Type := List (String × Doc)

/-- Fetch a document by id (doc_ref.get; doc.exists = isSome). -/
def Coll.getDoc (c : Coll) (id : String) : Option Doc :=
  List.lookup id c

/-- Models doc_ref.set(data): replace the document if present,
otherwise append it. -/
def Coll.setDoc (c : Coll) (id : String) (d : Doc) : Coll :=
  if c.any (fun p => p.1 == id) then
    c.map (fun p => if p.1 == id then (p.1, d) else p)
  else
    c ++ [(id, d)]

/-- Models doc_ref.update(upd): merge upd into the stored document. -/
def Coll.updateDoc (c : Coll) (id : String) (upd : Doc) : Coll :=
  c.map (fun p => if p.1 == id then (p.1, dictUpdate p.2 upd) else p)

/-- Models doc_ref.delete(). -/
def Coll.deleteDoc (c : Coll) (id : String) : Coll :=
  c.filter (fun p => !(p.1 == id))

/-- Models delete_by_field: delete every document of the collection
whose field field_name equals field_value. -/
def delete_by_field (c : Coll) (field_name : String) (field_value : Val) : Coll :=
  c.filter (fun p => !(decide (p.2.get? field_name = some field_value)))

/-- Models str.strip(): drop whitespace from both ends.  Implemented
over the character list so that it evaluates by kernel reduction. -/
def pyStrip (s : String) : String :=
  String.mk (((s.data.dropWhile Char.isWhitespace).reverse.dropWhile Char.isWhitespace).reverse)

/-- Models str.lower() (ASCII, as the data of this app needs). -/
def pyLower (s : String) : String :=
  String.mk (s.data.map Char.toLower)

/-- Models str.startswith(p). -/
def pyStartsWith (s p : String) : Bool :=
  decide (p.data <+: s.data)

/-- Models s.split(","): comma-separated pieces, empty pieces kept. -/
def splitCommaAux : List Char → List Char → List (List Char)
  | [], acc => [acc.reverse]
  | c :: rest, acc =>
    if c = ',' then acc.reverse :: splitCommaAux rest []
    else splitCommaAux rest (c :: acc)

/-- String version of splitCommaAux. -/
def pySplitComma (s : String) : List String :=
  (splitCommaAux s.data []).map String.mk

/-- Models Python int(s) on form tokens: optional surrounding
whitespace, an optional sign, then at least one digit; anything else
raises ValueError, modelled as Option.none. -/
def pyParseInt (s : String) : Option Int :=
  let t := (pyStrip s).data
  let core : List Char × Int :=
    match t with
    | '-' :: rest => (rest, -1)
    | '+' :: rest => (rest, 1)
    | _ => (t, 1)
  if core.1 ≠ [] ∧ core.1.all Char.isDigit then
    some (core.2 * (core.1.foldl (fun n c => n * 10 + (c.toNat - 48)) 0 : Nat))
  else
    Option.none

/-- A submitted HTML form: key/value pairs; repeated keys model
multi-valued fields (checkboxes).  form.get returns the first value,
matching the first-match lookup. -/
abbrev Form : Type := List (String × String)

/-- Models form.get(k, "").strip(). -/
def fget (f : Form) (k : String) : String :=
  pyStrip ((List.lookup k f).getD "")

/-- Models form.get(k, "") without strip. -/
def fgetRaw (f : Form) (k : String) : String :=
  (List.lookup k f).getD ""

/-- Models form.getlist(k). -/
def fgetlist (f : Form) (k : String) : List String :=
  (f.filter (fun p => p.1 == k)).map (fun p => p.2)

/-- Models passing the raw form as a template context (post=form). -/
def formToDoc (f : Form) : Doc := f.map (fun p => (p.1, Val.str p.2))

/-- The Flask session: a field is an Option since the corresponding
key may be absent from the session cookie. -/
structure Session where
  user_id : Option String
  user_name : Option String
deriving DecidableEq, Repr

/-- Wraps session.get(k) as a Firestore value (None when absent). -/
def valOfOpt : Option String → Val
  | Option.none => Val.none
  | some s => Val.str s

/-- The blob storage client state.  failDelete / failUpload model the
remote call raising an exception. -/
structure Storage where
  blobs : List String
  failDelete : Bool
  failUpload : Bool
deriving DecidableEq, Repr

/-- An uploaded file (werkzeug FileStorage).  decodeFails models
Image.open / convert raising on an undecodable payload; suffix is the
uuid4 fragment drawn when this file is uploaded. -/
structure UploadFile where
  filename : String
  mimetype : String
  decodeFails : Bool
  suffix : String
deriving DecidableEq, Repr

/-- The whole Firestore state of the application. -/
structure St where
  buyers : Coll
  sellers : Coll
  buyer_followups : Coll
  seller_followups : Coll
  blog_posts : Coll
  storage : Storage
deriving DecidableEq

/-- A handler response: a redirect, a rendered template (with the list
or the single record handed to it), or a CSV download. -/
inductive HResp where
  | redirect (target : String)
  | renderList (template : String) (items : List Doc)
  | renderDoc (template : String) (item : Doc)
  | csvResp (body : String)
deriving DecidableEq

/-- Models (b.get(k) or ""): the empty string for a missing key, a
None value, a non-string value, or an empty string. -/
def pyStrOr (v : Option Val) : String :=
  match v with
  | some (Val.str s) => s
  | _ => ""

/-- Models Python needle in hay on strings: substring containment. -/
def pyIn (needle hay : String) : Bool :=
  decide (needle.data <:+: hay.data)

/-! ## Image upload and blob storage (upload_image_to_storage,
delete_storage_file_by_url, delete_storage_files) -/

def ALLOWED_IMAGE_EXTENSIONS : List String := ["jpg", "jpeg", "png", "gif", "webp"]

/-- Models filename.rsplit(".", 1)[-1].lower(): the part after the
last dot, or the whole name when there is no dot. -/
def lastExt (filename : String) : String :=
  pyLower (String.mk ((filename.data.reverse.takeWhile (fun c => c ≠ '.')).reverse))

/-- The storage bucket configured at startup. -/
def bucketName : String := "team-me-98acf.firebasestorage.app"

/-- The public URL a freshly uploaded blob gets (blob.public_url). -/
def publicUrl (blob_path : String) : String :=
  "https://storage.googleapis.com/" ++ bucketName ++ "/" ++ blob_path

/-- The storage path chosen for an upload:
folder/object_id_suffix.ext, the suffix being the uuid4 fragment. -/
def blobPathOf (folder object_id : String) (f : UploadFile) : String :=
  folder ++ "/" ++ object_id ++ "_" ++ f.suffix ++ "." ++ lastExt f.filename

/-- Models upload_image_to_storage.  Validation failures (no file, no
filename, no extension, disallowed extension) return None without
touching storage; a decode failure (Image.open / convert) or an upload
failure raises, which the callers do not catch. -/
def upload_image_to_storage (file : Option UploadFile) (folder object_id : String)
    (stg : Storage) : Except String (Option String × Storage) :=
  match file with
  | Option.none => Except.ok (Option.none, stg)
  | some f =>
    if f.filename = "" then Except.ok (Option.none, stg)
    else if ¬ pyIn "." f.filename then Except.ok (Option.none, stg)
    else if ¬ ALLOWED_IMAGE_EXTENSIONS.contains (lastExt f.filename) then
      Except.ok (Option.none, stg)
    else if f.decodeFails then Except.error "image decode failed"
    else if stg.failUpload then Except.error "storage upload failed"
    else
      let path := blobPathOf folder object_id f
      Except.ok (some (publicUrl path), { stg with blobs := path :: stg.blobs })

/-- Hex digit value, for percent-decoding. -/
def hexVal (c : Char) : Option Nat :=
  if '0' ≤ c ∧ c ≤ '9' then some (c.toNat - 48)
  else if 'a' ≤ c ∧ c ≤ 'f' then some (c.toNat - 87)
  else if 'A' ≤ c ∧ c ≤ 'F' then some (c.toNat - 55)
  else Option.none

/-- UTF-8 bytes of a single character. -/
def charUtf8 (c : Char) : List UInt8 :=
  (String.toUTF8 (String.singleton c)).toList

/-- Percent-decoding at the byte level, as urllib.parse.unquote does:
a valid %XX pair becomes one byte, anything else passes through. -/
def percentDecodeBytes : List Char → List UInt8
  | [] => []
  | '%' :: a :: b :: rest =>
    match hexVal a, hexVal b with
    | some x, some y => UInt8.ofNat (16 * x + y) :: percentDecodeBytes rest
    | _, _ => charUtf8 '%' ++ percentDecodeBytes (a :: b :: rest)
  | c :: rest => charUtf8 c ++ percentDecodeBytes rest

/-- Models urllib.parse.unquote on the URLs this app handles; if the
decoded bytes are not valid UTF-8 the input is returned unchanged. -/
def pyUnquote (s : String) : String :=
  match String.fromUTF8? (percentDecodeBytes s.data).toByteArray with
  | some t => t
  | Option.none => s

/-- Drops sep when it is a prefix of l. -/
def chdropFront (sep l : List Char) : Option (List Char) :=
  match sep, l with
  | [], l => some l
  | _ :: _, [] => Option.none
  | s :: ss, c :: cs => if s = c then chdropFront ss cs else Option.none

/-- Splits l at the first occurrence of sep (models s.split(sep, 1)
when it finds a separator). -/
def chsplitFirst (sep : List Char) : List Char → Option (List Char × List Char)
  | [] => Option.none
  | c :: rest =>
    match chdropFront sep (c :: rest) with
    | some rem => some ([], rem)
    | Option.none =>
      match chsplitFirst sep rest with
      | some (a, b) => some (c :: a, b)
      | Option.none => Option.none

/-- String version of chsplitFirst. -/
def splitFirst (sep s : String) : Option (String × String) :=
  match chsplitFirst sep.data s.data with
  | some (a, b) => some (String.mk a, String.mk b)
  | Option.none => Option.none

/-- Models urlparse(url) as far as the code uses it: the netloc and
the path of a scheme://netloc/path URL. -/
def urlNetlocPath (url : String) : String × String :=
  match splitFirst "://" url with
  | Option.none => ("", url)
  | some (_, rest) =>
    let netloc := String.mk (rest.data.takeWhile (fun c => c ≠ '/'))
    let path := String.mk (rest.data.dropWhile (fun c => c ≠ '/'))
    (netloc, path)

/-- Models string.lstrip("/"). -/
def lstripSlash (s : String) : String :=
  String.mk (s.data.dropWhile (fun c => c = '/'))

/-- The URL parsing of delete_storage_file_by_url: recovers (bucket,
blob path) from one of the three supported URL shapes, None when the
URL matches none of them or leaves bucket or path empty. -/
def parseStorageUrl (url : String) : Option (String × String) :=
  if pyStartsWith url "gs://" then
    let no_scheme := String.mk (url.data.drop 5)
    let parts :=
      match splitFirst "/" no_scheme with
      | some (b, p) => (b, p)
      | Option.none => (no_scheme, "")
    if parts.1 = "" ∨ parts.2 = "" then Option.none else some parts
  else
    let netloc := (urlNetlocPath url).1
    let path := (urlNetlocPath url).2
    if pyIn "firebasestorage.googleapis.com" netloc ∧ (splitFirst "/o/" path).isSome then
      match splitFirst "/o/" path with
      | some (_, enc) =>
        let blob_path := pyUnquote enc
        if blob_path = "" then Option.none else some (bucketName, blob_path)
      | Option.none => Option.none
    else if pyIn "storage.googleapis.com" netloc then
      match splitFirst "/" (lstripSlash path) with
      | some (b, p) => if b = "" ∨ p = "" then Option.none else some (b, p)
      | Option.none => Option.none
    else
      Option.none

/-- Models delete_storage_file_by_url: parse the URL, delete the blob
when it exists; every failure (empty URL, unparsable URL, missing
blob, or the delete call raising) leaves storage unchanged, and the
surrounding try/except guarantees the function itself never raises. -/
def delete_storage_file_by_url (url : String) (stg : Storage) : Storage :=
  if url = "" then stg
  else
    match parseStorageUrl url with
    | Option.none => stg
    | some (_, blob_path) =>
      if stg.blobs.contains blob_path then
        if stg.failDelete then stg
        else { stg with blobs := stg.blobs.erase blob_path }
      else stg

/-- Models delete_storage_files: best-effort deletion of each URL. -/
def delete_storage_files (urls : List String) (stg : Storage) : Storage :=
  urls.foldl (fun s u => delete_storage_file_by_url u s) stg

/-- The upload loop of the edit and create handlers: for each file
with a filename, upload it and append the returned URL when the upload
produced one.  An exception from upload_image_to_storage propagates. -/
def uploadPhotosFold (folder object_id : String) :
    List UploadFile → List String → Storage → Except String (List String × Storage)
  | [], acc, stg => Except.ok (acc, stg)
  | f :: fs, acc, stg =>
    if f.filename = "" then uploadPhotosFold folder object_id fs acc stg
    else
      match upload_image_to_storage (some f) folder object_id stg with
      | Except.error e => Except.error e
      | Except.ok (Option.none, stg2) => uploadPhotosFold folder object_id fs acc stg2
      | Except.ok (some url, stg2) =>
        uploadPhotosFold folder object_id fs (acc ++ [url]) stg2

/-! ## List / filter / search pipeline (buyers, sellers, blog_index) -/

/-- The keyword filter shared by the buyers and sellers listings:
keep records whose name or phone contains q as a substring; an empty
q leaves the list untouched. -/
def keywordFilterNamePhone (q : String) (l : List Doc) : List Doc :=
  if q = "" then l
  else l.filter (fun b => pyIn q (pyStrOr (b.get? "name")) || pyIn q (pyStrOr (b.get? "phone")))

/-- Equality filter on an enum-like field (level, intent_type, stage,
status); an empty filter value leaves the list untouched. -/
def eqFieldFilter (field value : String) (l : List Doc) : List Doc :=
  if value = "" then l
  else l.filter (fun b => decide (b.get? field = some (Val.str value)))

/-- Substring filter on the source field. -/
def sourceFilter (source : String) (l : List Doc) : List Doc :=
  if source = "" then l
  else l.filter (fun b => pyIn source (pyStrOr (b.get? "source")))

/-- Models parse_created_at: the created_at value, or the empty string
when the field is missing or falsy. -/
def parse_created_at (b : Doc) : String :=
  let v := pyStrOr (b.get? "created_at")
  if v = "" then "" else v

/-- Models b.get("name") or "" as a sort key. -/
def nameKey (b : Doc) : String := pyStrOr (b.get? "name")

/-- Python list.sort(key=key) : a stable sort, ascending in the key. -/
def sortByKeyAsc (key : Doc → String) (l : List Doc) : List Doc :=
  l.mergeSort (fun a b => decide (key a ≤ key b))

/-- Python list.sort(key=key, reverse=True) : a stable sort,
descending in the key (ties keep their original order, which a stable
sort under the flipped comparison reproduces). -/
def sortByKeyDesc (key : Doc → String) (l : List Doc) : List Doc :=
  l.mergeSort (fun a b => decide (key b ≤ key a))

/-- The sort dispatch shared by the buyers and sellers listings. -/
def sortDispatch (sort_by : String) (l : List Doc) : List Doc :=
  if sort_by = "created_at_asc" then sortByKeyAsc parse_created_at l
  else if sort_by = "created_at_desc" then sortByKeyDesc parse_created_at l
  else if sort_by = "name_asc" then sortByKeyAsc nameKey l
  else if sort_by = "name_desc" then sortByKeyDesc nameKey l
  else l

/-- Query parameters of the buyers listing, as sent (stripped inside
the handler, as the source does). -/
structure BuyersArgs where
  q : String
  level : String
  intent_type : String
  stage : String
  source : String
  sort_by : String

/-- The buyers listing pipeline: fetch all, keyword filter, equality
filters, source substring filter, sort. -/
def buyersPipeline (a : BuyersArgs) (c : Coll) : List Doc :=
  let l := c.map (fun p => doc_to_dict p.1 p.2)
  let l := keywordFilterNamePhone (pyStrip a.q) l
  let l := eqFieldFilter "level" (pyStrip a.level) l
  let l := eqFieldFilter "intent_type" (pyStrip a.intent_type) l
  let l := eqFieldFilter "stage" (pyStrip a.stage) l
  let l := sourceFilter (pyStrip a.source) l
  sortDispatch a.sort_by l

/-- Query parameters of the sellers listing. -/
structure SellersArgs where
  q : String
  level : String
  stage : String
  source : String
  sort_by : String

/-- The sellers listing pipeline (no intent_type filter). -/
def sellersPipeline (a : SellersArgs) (c : Coll) : List Doc :=
  let l := c.map (fun p => doc_to_dict p.1 p.2)
  let l := keywordFilterNamePhone (pyStrip a.q) l
  let l := eqFieldFilter "level" (pyStrip a.level) l
  let l := eqFieldFilter "stage" (pyStrip a.stage) l
  let l := sourceFilter (pyStrip a.source) l
  sortDispatch a.sort_by l

/-- The categories of a post after read-time normalization. -/
def getCats (p : Doc) : List String :=
  match p.get? "categories" with
  | some (Val.list l) => l
  | _ => []

/-- Read-time normalization of blog posts: when the stored categories
value is not a list, replace it in the in-memory record with the list
derived from the legacy single category field; the stored document is
not touched. -/
def normalizePostCats (p : Doc) : Doc :=
  match p.get? "categories" with
  | some (Val.list _) => p
  | _ =>
    let c := pyStrip (pyStrOr (p.get? "category"))
    ("categories", Val.list (if c = "" then [] else [c])) :: p

/-- The blog keyword filter: case-insensitive match over title,
content_text, tags, and the comma-joined categories. -/
def blogKeywordFilter (q : String) (l : List Doc) : List Doc :=
  if q = "" then l
  else
    let ql := pyLower q
    l.filter (fun p =>
      pyIn ql (pyLower (pyStrOr (p.get? "title")))
      || pyIn ql (pyLower (pyStrOr (p.get? "content_text")))
      || pyIn ql (pyLower (pyStrOr (p.get? "tags")))
      || pyIn ql (pyLower (String.intercalate ", " (getCats p))))

/-- The category filter: keep posts one of whose categories equals
the selected category. -/
def blogCategoryFilter (category : String) (l : List Doc) : List Doc :=
  if category = "" then l
  else l.filter (fun p => (getCats p).contains category)

/-- The blog sort key: x.get("created_at", ""). -/
def blogCreatedKey (p : Doc) : String := pyStrOr (p.get? "created_at")

/-- Query parameters of the blog listing. -/
structure BlogArgs where
  q : String
  category : String
  status : String
  sort_by : String

/-- The blog listing pipeline: fetch all, normalize categories,
keyword filter, category filter, status filter, sort (descending
unless sort_by is created_at_asc). -/
def blogIndexPosts (a : BlogArgs) (c : Coll) : List Doc :=
  let posts := (c.map (fun p => doc_to_dict p.1 p.2)).map normalizePostCats
  let posts := blogKeywordFilter (pyStrip a.q) posts
  let posts := blogCategoryFilter (pyStrip a.category) posts
  let posts := eqFieldFilter "status" (pyStrip a.status) posts
  if a.sort_by = "created_at_asc" then sortByKeyAsc blogCreatedKey posts
  else sortByKeyDesc blogCreatedKey posts

/-! ## Auth gate -/

/-- Models the login_required decorator: without a user_id in the
session the wrapped view is never entered; the request is answered
with a redirect to the login form (after flashing a notice) and the
store is untouched. -/
def login_required {α : Type} (view : Session → α → St → HResp × St) :
    Session → α → St → HResp × St :=
  fun sess a st =>
    match sess.user_id with
    | Option.none => (HResp.redirect "login", st)
    | some _ => view sess a st

/-- login_required for handlers that may raise (image uploads). -/
def login_requiredE {α : Type} (view : Session → α → St → Except String (HResp × St)) :
    Session → α → St → Except String (HResp × St) :=
  fun sess a st =>
    match sess.user_id with
    | Option.none => Except.ok (HResp.redirect "login", st)
    | some _ => view sess a st

/-! ## Buyers -/

/-- The buyer form fields read by buyers_new (all stripped). -/
def buyersNewData (form : Form) (sess : Session) (now : String) : Doc :=
  [("name", Val.str (fget form "name")),
   ("phone", Val.str (fget form "phone")),
   ("email", Val.str (fget form "email")),
   ("line_id", Val.str (fget form "line_id")),
   ("source", Val.str (fget form "source")),
   ("level", Val.str (fget form "level")),
   ("intent_type", Val.str (fget form "intent_type")),
   ("rent_min", Val.str (fget form "rent_min")),
   ("rent_max", Val.str (fget form "rent_max")),
   ("budget_min", Val.str (fget form "budget_min")),
   ("budget_max", Val.str (fget form "budget_max")),
   ("preferred_areas", Val.str (fget form "preferred_areas")),
   ("property_type", Val.str (fget form "property_type")),
   ("room_range", Val.str (fget form "room_range")),
   ("car_need", Val.str (fget form "car_need")),
   ("job", Val.str (fget form "job")),
   ("family_info", Val.str (fget form "family_info")),
   ("requirement_must", Val.str (fget form "requirement_must")),
   ("requirement_nice", Val.str (fget form "requirement_nice")),
   ("other_background", Val.str (fget form "other_background")),
   ("note", Val.str (fget form "note")),
   ("created_at", Val.str now),
   ("created_by_id", valOfOpt sess.user_id),
   ("created_by_name", valOfOpt sess.user_name)]

/-- Models buyers_new: blank name flashes and redirects to the list
without touching Firestore; otherwise the optional photo is uploaded
(exceptions propagate) and the document is written under the
pre-generated id newId. -/
def buyers_new (sess : Session) (now : String) (form : Form) (file : Option UploadFile)
    (newId : String) (st : St) : Except String (HResp × St) :=
  let name := fget form "name"
  if name = "" then Except.ok (HResp.redirect "buyers", st)
  else
    let upl : Except String (Option String × Storage) :=
      match file with
      | some f =>
        if f.filename ≠ "" then upload_image_to_storage (some f) "buyers" newId st.storage
        else Except.ok (Option.none, st.storage)
      | Option.none => Except.ok (Option.none, st.storage)
    match upl with
    | Except.error e => Except.error e
    | Except.ok (photo_url, stg2) =>
      let data := buyersNewData form sess now
      let data :=
        match photo_url with
        | some u => data ++ [("photo_url", Val.str u)]
        | Option.none => data
      Except.ok (HResp.redirect "buyers",
        { st with buyers := Coll.setDoc st.buyers newId data, storage := stg2 })

/-- The buyer form fields read by buyer_edit (all stripped; these are
both the invalid-branch template context update and the text part of
the written update). -/
def buyerEditFormFields (form : Form) : Doc :=
  [("name", Val.str (fget form "name")),
   ("phone", Val.str (fget form "phone")),
   ("email", Val.str (fget form "email")),
   ("line_id", Val.str (fget form "line_id")),
   ("source", Val.str (fget form "source")),
   ("level", Val.str (fget form "level")),
   ("intent_type", Val.str (fget form "intent_type")),
   ("rent_min", Val.str (fget form "rent_min")),
   ("rent_max", Val.str (fget form "rent_max")),
   ("budget_min", Val.str (fget form "budget_min")),
   ("budget_max", Val.str (fget form "budget_max")),
   ("preferred_areas", Val.str (fget form "preferred_areas")),
   ("property_type", Val.str (fget form "property_type")),
   ("room_range", Val.str (fget form "room_range")),
   ("car_need", Val.str (fget form "car_need")),
   ("job", Val.str (fget form "job")),
   ("family_info", Val.str (fget form "family_info")),
   ("requirement_must", Val.str (fget form "requirement_must")),
   ("requirement_nice", Val.str (fget form "requirement_nice")),
   ("other_background", Val.str (fget form "other_background")),
   ("note", Val.str (fget form "note")),
   ("stage", Val.str (fget form "stage"))]

/-- The audit triple appended to every buyer / seller edit update. -/
def auditUpdate (sess : Session) (now : String) : Doc :=
  [("updated_at", Val.str now),
   ("updated_by_id", valOfOpt sess.user_id),
   ("updated_by_name", valOfOpt sess.user_name)]

/-- The stored photo list an edit starts from: photo_urls when it is a
non-empty list, else the singleton legacy photo_url when truthy, else
empty. -/
def currentPhotoList (d : Doc) : List String :=
  let cur :=
    match d.get? "photo_urls" with
    | some (Val.list l) => l
    | _ => []
  if cur = [] then
    match d.get? "photo_url" with
    | some (Val.str u) => if u = "" then [] else [u]
    | _ => []
  else cur

/-- The delete_photos checkbox values that parse as Python ints; a
ValueError is swallowed, dropping the token. -/
def deleteIndexList (tokens : List String) : List Int :=
  tokens.filterMap pyParseInt

/-- The full update written by buyer_edit: form fields, audit triple,
then the reconciled photo list and the legacy first-photo field. -/
def buyerEditWritten (form : Form) (sess : Session) (now : String)
    (new_photos : List String) : Doc :=
  buyerEditFormFields form ++ auditUpdate sess now
    ++ [("photo_urls", Val.list new_photos),
        ("photo_url", Val.str (new_photos.headD ""))]

/-- Models the POST branch of buyer_edit.  Unknown id: flash and
redirect.  Blank name: re-render the form with the submitted values
merged over the stored record, writing nothing.  Otherwise: write the
merged update (photo indexes reconciled, new uploads appended), then
best-effort delete the removed blobs. -/
def buyer_edit_post (sess : Session) (now : String) (form : Form)
    (files : List UploadFile) (buyer_id : String) (st : St) :
    Except String (HResp × St) :=
  match Coll.getDoc st.buyers buyer_id with
  | Option.none => Except.ok (HResp.redirect "buyers", st)
  | some stored =>
    let buyer := doc_to_dict buyer_id stored
    let name := fget form "name"
    if name = "" then
      Except.ok (HResp.renderDoc "buyer_edit.html"
        (dictUpdate buyer (buyerEditFormFields form)), st)
    else
      let current_photos := currentPhotoList buyer
      let delete_indexes := deleteIndexList (fgetlist form "delete_photos")
      let deleted_urls :=
        (current_photos.enum.filter (fun p => delete_indexes.contains ((p.1 : Int)))).map
          (fun p => p.2)
      let kept :=
        (current_photos.enum.filter (fun p => !(delete_indexes.contains ((p.1 : Int))))).map
          (fun p => p.2)
      match uploadPhotosFold "buyers" buyer_id files kept st.storage with
      | Except.error e => Except.error e
      | Except.ok (new_photos, stg2) =>
        let st2 := { st with
          buyers := Coll.updateDoc st.buyers buyer_id (buyerEditWritten form sess now new_photos),
          storage := stg2 }
        let stg3 :=
          if deleted_urls ≠ [] then delete_storage_files deleted_urls st2.storage
          else st2.storage
        Except.ok (HResp.redirect "buyer_detail", { st2 with storage := stg3 })

/-- Models buyer_delete: cascade-delete the followups referencing the
buyer, then the buyer itself. -/
def buyer_delete (buyer_id : String) (st : St) : HResp × St :=
  (HResp.redirect "buyers",
    { st with
      buyer_followups := delete_by_field st.buyer_followups "buyer_id" (Val.str buyer_id),
      buyers := Coll.deleteDoc st.buyers buyer_id })

/-- The update written by both followup edit handlers: the five
content fields, contact_time defaulting to the current minute-format
clock nowHM when blank.  No audit fields are written. -/
def followupEditUpdate (form : Form) (nowHM : String) : Doc :=
  [("contact_time",
      Val.str (let ct := fget form "contact_time"; if ct = "" then nowHM else ct)),
   ("channel", Val.str (fget form "channel")),
   ("content", Val.str (fget form "content")),
   ("next_action", Val.str (fget form "next_action")),
   ("next_contact_date", Val.str (fget form "next_contact_date"))]

/-- Models the POST branch of buyer_followup_edit. -/
def buyer_followup_edit_post (form : Form) (nowHM : String)
    (buyer_id followup_id : String) (st : St) : HResp × St :=
  match Coll.getDoc st.buyer_followups followup_id with
  | Option.none => (HResp.redirect "buyer_detail", st)
  | some _ =>
    (HResp.redirect "buyer_detail",
      { st with buyer_followups :=
          Coll.updateDoc st.buyer_followups followup_id (followupEditUpdate form nowHM) })

/-- The document written by add_buyer_followup / add_seller_followup:
the parent reference, the five content fields, and the creation
audit. -/
def followupNewDoc (parent_key parent_id : String) (form : Form)
    (nowHM now : String) (sess : Session) : Doc :=
  [(parent_key, Val.str parent_id)] ++ followupEditUpdate form nowHM
    ++ [("created_at", Val.str now),
        ("created_by_id", valOfOpt sess.user_id),
        ("created_by_name", valOfOpt sess.user_name)]

/-- Models add_buyer_followup. -/
def add_buyer_followup (sess : Session) (form : Form) (nowHM now : String)
    (buyer_id newId : String) (st : St) : HResp × St :=
  (HResp.redirect "buyer_detail",
    { st with buyer_followups :=
        Coll.setDoc st.buyer_followups newId (followupNewDoc "buyer_id" buyer_id form nowHM now sess) })

/-- Models the buyers listing view. -/
def buyersView (a : BuyersArgs) (st : St) : HResp × St :=
  (HResp.renderList "buyers.html" (buyersPipeline a st.buyers), st)

/-! ## Sellers -/

/-- Models the sellers listing view. -/
def sellersView (a : SellersArgs) (st : St) : HResp × St :=
  (HResp.renderList "sellers.html" (sellersPipeline a st.sellers), st)

/-- The seller form fields read by sellers_new / seller_edit (all
stripped). -/
def sellerFormFields (form : Form) : Doc :=
  [("name", Val.str (fget form "name")),
   ("phone", Val.str (fget form "phone")),
   ("email", Val.str (fget form "email")),
   ("line_id", Val.str (fget form "line_id")),
   ("address", Val.str (fget form "address")),
   ("property_type", Val.str (fget form "property_type")),
   ("level", Val.str (fget form "level")),
   ("stage", Val.str (fget form "stage")),
   ("reason", Val.str (fget form "reason")),
   ("expected_price", Val.str (fget form "expected_price")),
   ("min_price", Val.str (fget form "min_price")),
   ("timeline", Val.str (fget form "timeline")),
   ("occupancy_status", Val.str (fget form "occupancy_status")),
   ("contract_end_date", Val.str (fget form "contract_end_date")),
   ("note", Val.str (fget form "note"))]

/-- Models sellers_new: blank name redirects without writing;
otherwise all photos are uploaded (exceptions propagate) and the
document is written, photo_urls always present (possibly empty) and
photo_url the first URL or the empty string. -/
def sellers_new (sess : Session) (now : String) (form : Form)
    (files : List UploadFile) (newId : String) (st : St) :
    Except String (HResp × St) :=
  let name := fget form "name"
  if name = "" then Except.ok (HResp.redirect "sellers", st)
  else
    match uploadPhotosFold "sellers" newId files [] st.storage with
    | Except.error e => Except.error e
    | Except.ok (photo_urls, stg2) =>
      let data := sellerFormFields form
        ++ [("created_at", Val.str now),
            ("created_by_id", valOfOpt sess.user_id),
            ("created_by_name", valOfOpt sess.user_name),
            ("photo_urls", Val.list photo_urls),
            ("photo_url", Val.str (photo_urls.headD ""))]
      Except.ok (HResp.redirect "sellers",
        { st with sellers := Coll.setDoc st.sellers newId data, storage := stg2 })

/-- The full update written by seller_edit: form fields, audit triple,
reconciled photos.  Note seller_edit performs no required-name check:
the update is written even when the submitted name is blank. -/
def sellerEditWritten (form : Form) (sess : Session) (now : String)
    (new_photos : List String) : Doc :=
  sellerFormFields form ++ auditUpdate sess now
    ++ [("photo_urls", Val.list new_photos),
        ("photo_url", Val.str (new_photos.headD ""))]

/-- Models the POST branch of seller_edit.  Unlike buyer_edit there is
no blank-name validation. -/
def seller_edit_post (sess : Session) (now : String) (form : Form)
    (files : List UploadFile) (seller_id : String) (st : St) :
    Except String (HResp × St) :=
  match Coll.getDoc st.sellers seller_id with
  | Option.none => Except.ok (HResp.redirect "sellers", st)
  | some stored =>
    let seller := doc_to_dict seller_id stored
    let current_photos := currentPhotoList seller
    let delete_indexes := deleteIndexList (fgetlist form "delete_photos")
    let deleted_urls :=
      (current_photos.enum.filter (fun p => delete_indexes.contains ((p.1 : Int)))).map
        (fun p => p.2)
    let kept :=
      (current_photos.enum.filter (fun p => !(delete_indexes.contains ((p.1 : Int))))).map
        (fun p => p.2)
    match uploadPhotosFold "sellers" seller_id files kept st.storage with
    | Except.error e => Except.error e
    | Except.ok (new_photos, stg2) =>
      let st2 := { st with
        sellers := Coll.updateDoc st.sellers seller_id (sellerEditWritten form sess now new_photos),
        storage := stg2 }
      let stg3 :=
        if deleted_urls ≠ [] then delete_storage_files deleted_urls st2.storage
        else st2.storage
      Except.ok (HResp.redirect "seller_detail", { st2 with storage := stg3 })

/-- Models seller_delete: cascade-delete the followups referencing the
seller, then the seller itself. -/
def seller_delete (seller_id : String) (st : St) : HResp × St :=
  (HResp.redirect "sellers",
    { st with
      seller_followups := delete_by_field st.seller_followups "seller_id" (Val.str seller_id),
      sellers := Coll.deleteDoc st.sellers seller_id })

/-- Models the POST branch of seller_followup_edit. -/
def seller_followup_edit_post (form : Form) (nowHM : String)
    (seller_id followup_id : String) (st : St) : HResp × St :=
  match Coll.getDoc st.seller_followups followup_id with
  | Option.none => (HResp.redirect "seller_detail", st)
  | some _ =>
    (HResp.redirect "seller_detail",
      { st with seller_followups :=
          Coll.updateDoc st.seller_followups followup_id (followupEditUpdate form nowHM) })

/-! ## CSV export -/

/-- Does csv.writer (QUOTE_MINIMAL) need to quote this field? -/
def csvNeedsQuote (s : String) : Bool :=
  s.data.any (fun c => c == ',' || c == '"' || c == '\r' || c == '\n')

/-- One CSV field under QUOTE_MINIMAL: quoted with doubled quote
characters when needed. -/
def csvField (s : String) : String :=
  if csvNeedsQuote s then "\"" ++ s.replace "\"" "\"\"" ++ "\"" else s

/-- One CSV row: comma-joined fields and the default CRLF
lineterminator. -/
def csvRow (fields : List String) : String :=
  String.intercalate "," (fields.map csvField) ++ "\r\n"

/-- A single quote character, for the Python repr of list values. -/
def pyQuoteChar : String := String.singleton (Char.ofNat 39)

/-- How csv.writer stringifies a non-string cell via str(): None
prints as None, a list as its bracketed repr (quote escaping inside
elements not modelled; the exported fields are strings in this app). -/
def valToCsvStr : Val → String
  | Val.str s => s
  | Val.none => "None"
  | Val.list l => "[" ++ String.intercalate ", " (l.map (fun s => pyQuoteChar ++ s ++ pyQuoteChar)) ++ "]"

/-- Models row.get(k, "") in the CSV writers. -/
def pyGetCsv (d : Doc) (k : String) : String :=
  match d.get? k with
  | Option.none => ""
  | some v => valToCsvStr v

/-- The fixed localized buyers CSV header. -/
def buyersCsvHeader : List String :=
  ["id", "姓名", "電話", "Email", "LINE ID", "客源來源", "客戶等級", "進程",
   "需求類型", "預算最低(萬)", "預算最高(萬)", "租金最低", "租金最高",
   "偏好區域", "產品類型", "房數需求", "車位需求", "職業/收入",
   "家庭成員/生活型態", "必備條件(Must Have)", "加分條件(Nice to Have)",
   "背景補充", "內部備註", "建立時間", "建立者", "最後編輯時間", "最後編輯者"]

/-- One buyers CSV data row. -/
def buyerCsvRow (b : Doc) : List String :=
  [pyGetCsv b "id", pyGetCsv b "name", pyGetCsv b "phone", pyGetCsv b "email",
   pyGetCsv b "line_id", pyGetCsv b "source", pyGetCsv b "level", pyGetCsv b "stage",
   pyGetCsv b "intent_type", pyGetCsv b "budget_min", pyGetCsv b "budget_max",
   pyGetCsv b "rent_min", pyGetCsv b "rent_max", pyGetCsv b "preferred_areas",
   pyGetCsv b "property_type", pyGetCsv b "room_range", pyGetCsv b "car_need",
   pyGetCsv b "job", pyGetCsv b "family_info", pyGetCsv b "requirement_must",
   pyGetCsv b "requirement_nice", pyGetCsv b "other_background", pyGetCsv b "note",
   pyGetCsv b "created_at", pyGetCsv b "created_by_name", pyGetCsv b "updated_at",
   pyGetCsv b "updated_by_name"]

/-- Models download_buyers: the whole collection serialized with the
header row, prefixed by the UTF-8 byte-order mark. -/
def download_buyers (st : St) : HResp × St :=
  let rows := st.buyers.map (fun p => doc_to_dict p.1 p.2)
  let body := "\uFEFF" ++ csvRow buyersCsvHeader
    ++ String.join (rows.map (fun b => csvRow (buyerCsvRow b)))
  (HResp.csvResp body, st)

/-- The fixed localized sellers CSV header. -/
def sellersCsvHeader : List String :=
  ["id", "姓名", "電話", "Email", "LINE ID", "物件地址", "產品類型", "客戶等級",
   "進程", "出售原因", "期望售價(萬)", "可接受底價(萬)", "預計出售時程",
   "目前使用狀態", "委託到期日", "內部備註", "建立時間", "建立者",
   "最後編輯時間", "最後編輯者"]

/-- One sellers CSV data row. -/
def sellerCsvRow (s : Doc) : List String :=
  [pyGetCsv s "id", pyGetCsv s "name", pyGetCsv s "phone", pyGetCsv s "email",
   pyGetCsv s "line_id", pyGetCsv s "address", pyGetCsv s "property_type",
   pyGetCsv s "level", pyGetCsv s "stage", pyGetCsv s "reason",
   pyGetCsv s "expected_price", pyGetCsv s "min_price", pyGetCsv s "timeline",
   pyGetCsv s "occupancy_status", pyGetCsv s "contract_end_date", pyGetCsv s "note",
   pyGetCsv s "created_at", pyGetCsv s "created_by_name", pyGetCsv s "updated_at",
   pyGetCsv s "updated_by_name"]

/-- Models download_sellers. -/
def download_sellers (st : St) : HResp × St :=
  let rows := st.sellers.map (fun p => doc_to_dict p.1 p.2)
  let body := "\uFEFF" ++ csvRow sellersCsvHeader
    ++ String.join (rows.map (fun s => csvRow (sellerCsvRow s)))
  (HResp.csvResp body, st)

/-! ## Blog (src/blog/routes.py) — these routes carry no
login_required decorator; the session is still threaded in because the
create / edit handlers read the acting user from it. -/

/-- Models the blog listing route. -/
def blog_index (sess : Session) (a : BlogArgs) (st : St) : HResp × St :=
  (HResp.renderList "blog_list.html" (blogIndexPosts a st.blog_posts), st)

/-- Category / new-category merging of blog_new and blog_edit: the
checked categories plus the comma-separated add-new field, trimmed,
de-duplicated preserving first-seen order, blanks dropped. -/
def blogCategoriesOf (form : Form) : List String :=
  let selected := fgetlist form "categories"
  let new_str := fget form "new_categories"
  let extra :=
    if new_str ≠ "" then ((pySplitComma new_str).map pyStrip).filter (fun c => c ≠ "")
    else []
  (selected ++ extra).foldl
    (fun acc c =>
      let c := pyStrip c
      if c ≠ "" ∧ ¬ acc.contains c then acc ++ [c] else acc)
    []

/-- The plain-text rendering of the HTML content used for search. -/
def contentTextOf (content_html : String) : String :=
  (((content_html.replace "\r" " ").replace "\n" " ").replace "<br>" " ").replace "<br/>" " "

/-- The document written by blog_new. -/
def blogNewDoc (form : Form) (sess : Session) (now : String) : Doc :=
  let content_html := fget form "content"
  let categories := blogCategoriesOf form
  [("title", Val.str (fget form "title")),
   ("content", Val.str content_html),
   ("content_text", Val.str (contentTextOf content_html)),
   ("categories", Val.list categories),
   ("category", Val.str (categories.headD "")),
   ("status", Val.str (fget form "status")),
   ("project", Val.str (fget form "project")),
   ("tags", Val.str (fget form "tags")),
   ("created_at", Val.str now),
   ("created_by_id", valOfOpt sess.user_id),
   ("created_by_name", Val.str (sess.user_name.getD "系統")),
   ("updated_at", Val.str now),
   ("updated_by_id", valOfOpt sess.user_id),
   ("updated_by_name", Val.str (sess.user_name.getD "系統"))]

/-- Models the POST branch of blog_new: blank title re-renders the
form with the submitted values (post=form) and writes nothing;
otherwise the document is added under the generated id newId. -/
def blog_new_post (sess : Session) (now : String) (form : Form) (newId : String)
    (st : St) : HResp × St :=
  if fget form "title" = "" then
    (HResp.renderDoc "blog_form.html" (formToDoc form), st)
  else
    (HResp.redirect "blog_index",
      { st with blog_posts := Coll.setDoc st.blog_posts newId (blogNewDoc form sess now) })

/-- Models blog_detail: unknown id redirects; otherwise the post is
rendered with its categories normalized to a list, the stored
document untouched. -/
def blog_detail (sess : Session) (post_id : String) (st : St) : HResp × St :=
  match Coll.getDoc st.blog_posts post_id with
  | Option.none => (HResp.redirect "blog_index", st)
  | some d => (HResp.renderDoc "blog_detail.html" (normalizePostCats (doc_to_dict post_id d)), st)

/-- Models the GET branch of blog_edit: like blog_detail but the edit
form template. -/
def blog_edit_get (sess : Session) (post_id : String) (st : St) : HResp × St :=
  match Coll.getDoc st.blog_posts post_id with
  | Option.none => (HResp.redirect "blog_index", st)
  | some d => (HResp.renderDoc "blog_form.html" (normalizePostCats (doc_to_dict post_id d)), st)

/-- The template-context update of the blank-title branch of
blog_edit (note: these values are the raw form values, unstripped
except the title). -/
def blogEditInvalidCtx (form : Form) : Doc :=
  [("title", Val.str (fget form "title")),
   ("content", Val.str (fgetRaw form "content")),
   ("status", Val.str (fgetRaw form "status")),
   ("tags", Val.str (fgetRaw form "tags")),
   ("project", Val.str (fgetRaw form "project")),
   ("categories", Val.list (fgetlist form "categories"))]

/-- The update written by blog_edit. -/
def blogEditUpdate (form : Form) (sess : Session) (now : String) : Doc :=
  let content_html := fget form "content"
  let categories := blogCategoriesOf form
  [("title", Val.str (fget form "title")),
   ("content", Val.str content_html),
   ("content_text", Val.str (contentTextOf content_html)),
   ("categories", Val.list categories),
   ("category", Val.str (categories.headD "")),
   ("status", Val.str (fget form "status")),
   ("tags", Val.str (fget form "tags")),
   ("project", Val.str (fget form "project")),
   ("updated_at", Val.str now),
   ("updated_by_id", valOfOpt sess.user_id),
   ("updated_by_name", Val.str (sess.user_name.getD "系統"))]

/-- Models the POST branch of blog_edit: unknown id redirects; blank
title re-renders the form with the submitted values merged over the
normalized stored post, writing nothing; otherwise the update is
written. -/
def blog_edit_post (sess : Session) (now : String) (form : Form) (post_id : String)
    (st : St) : HResp × St :=
  match Coll.getDoc st.blog_posts post_id with
  | Option.none => (HResp.redirect "blog_index", st)
  | some d =>
    let post := normalizePostCats (doc_to_dict post_id d)
    if fget form "title" = "" then
      (HResp.renderDoc "blog_form.html" (dictUpdate post (blogEditInvalidCtx form)), st)
    else
      (HResp.redirect "blog_detail",
        { st with blog_posts := Coll.updateDoc st.blog_posts post_id (blogEditUpdate form sess now) })

/-- Models blog_delete.  The session parameter is never consulted:
the route carries no login check. -/
def blog_delete (sess : Session) (post_id : String) (st : St) : HResp × St :=
  (HResp.redirect "blog_index",
    { st with blog_posts := Coll.deleteDoc st.blog_posts post_id })

/-! ## Guarded route wrappers, as the decorators compose them -/

/-- GET /buyers. -/
def buyers_route : Session → BuyersArgs → St → HResp × St :=
  login_required (fun _ a st => buyersView a st)

/-- GET /sellers. -/
def sellers_route : Session → SellersArgs → St → HResp × St :=
  login_required (fun _ a st => sellersView a st)

/-- POST /buyers/id/delete. -/
def buyer_delete_route : Session → String → St → HResp × St :=
  login_required (fun _ bid st => buyer_delete bid st)

/-- POST /sellers/id/delete. -/
def seller_delete_route : Session → String → St → HResp × St :=
  login_required (fun _ sid st => seller_delete sid st)

/-- GET /buyers/download. -/
def download_buyers_route : Session → Unit → St → HResp × St :=
  login_required (fun _ _ st => download_buyers st)

/-- GET /sellers/download. -/
def download_sellers_route : Session → Unit → St → HResp × St :=
  login_required (fun _ _ st => download_sellers st)

/-- POST /buyers/new. -/
def buyers_new_route : Session → String × Form × Option UploadFile × String → St →
    Except String (HResp × St) :=
  login_requiredE (fun sess p st => buyers_new sess p.1 p.2.1 p.2.2.1 p.2.2.2 st)

/-- POST /buyers/id/edit. -/
def buyer_edit_route : Session → String × Form × List UploadFile × String → St →
    Except String (HResp × St) :=
  login_requiredE (fun sess p st => buyer_edit_post sess p.1 p.2.1 p.2.2.1 p.2.2.2 st)

/-- POST /sellers/id/edit. -/
def seller_edit_route : Session → String × Form × List UploadFile × String → St →
    Except String (HResp × St) :=
  login_requiredE (fun sess p st => seller_edit_post sess p.1 p.2.1 p.2.2.1 p.2.2.2 st)

/-- POST /buyers/id/followup/fid/edit. -/
def buyer_followup_edit_route : Session → Form × String × String × String → St → HResp × St :=
  login_required (fun _ p st => buyer_followup_edit_post p.1 p.2.1 p.2.2.1 p.2.2.2 st)

/-! ## Spec-side definitions, for the refinement statements.  These
are written from the words of the specification, to be compared with
the handler embeddings above. -/

/-- Modelled from the spec: the previously stored photo list —
photo_urls if non-empty, otherwise the singleton legacy photo_url if
present, otherwise empty. -/
def storedPhotoListSpec (d : Doc) : List String :=
  match d.get? "photo_urls" with
  | some (Val.list (x :: xs)) => x :: xs
  | _ =>
    match d.get? "photo_url" with
    | some (Val.str u) => if u = "" then [] else [u]
    | _ => []

/-- Modelled from the spec: drop the entries whose position (counting
from n) appears among the given integer indexes. -/
def removeAtIndexesSpec (idxs : List Int) : Nat → List String → List String
  | _, [] => []
  | n, x :: xs =>
    if idxs.contains (n : Int) then removeAtIndexesSpec idxs (n + 1) xs
    else x :: removeAtIndexesSpec idxs (n + 1) xs

/-- Modelled from the spec: the URLs of the newly uploaded images —
one per submitted file that passes the filename and extension
checks. -/
def uploadedUrlsSpec (folder object_id : String) (files : List UploadFile) : List String :=
  files.filterMap (fun f =>
    if f.filename ≠ "" ∧ pyIn "." f.filename
        ∧ ALLOWED_IMAGE_EXTENSIONS.contains (lastExt f.filename) then
      some (publicUrl (blobPathOf folder object_id f))
    else Option.none)

/-- Modelled from the spec: the previously stored photos with the
entries at the submitted integer delete-indexes removed in original
order (tokens that do not parse as integers are ignored), followed by
the URLs of the newly uploaded images. -/
def photoReconcileSpec (prev tokens uploads : List String) : List String :=
  removeAtIndexesSpec (tokens.filterMap pyParseInt) 0 prev ++ uploads

/-! ## Helper lemmas -/

/-- Filtering twice with one predicate equals filtering once. -/
theorem filter_self_idem {α : Type} (p : α → Bool) (l : List α) :
    (l.filter p).filter p = l.filter p := by
  induction l with
  | nil => rfl
  | cons x xs ih =>
    by_cases h : p x
    · simp [List.filter_cons, h, ih]
    · simp [List.filter_cons, h, ih]

/-- The enumerate-filter-map photo reconciliation of the edit
handlers computes the spec-side index removal. -/
theorem kept_eq_removeAtIndexesSpec (idxs : List Int) (l : List String) (n : Nat) :
    ((List.enumFrom n l).filter (fun p => !(idxs.contains ((p.1 : Int))))).map (fun p => p.2)
      = removeAtIndexesSpec idxs n l := by
  induction l generalizing n with
  | nil => rfl
  | cons x xs ih =>
    by_cases h : ((n : Int) ∈ idxs)
    · simpa [List.enumFrom, List.filter_cons, h, removeAtIndexesSpec] using ih (n + 1)
    · simpa [List.enumFrom, List.filter_cons, h, removeAtIndexesSpec] using ih (n + 1)

/-- doc_to_dict only adds the id key, so currentPhotoList looks
through it. -/
theorem currentPhotoList_doc_to_dict (id : String) (d : Doc) :
    currentPhotoList (doc_to_dict id d) = currentPhotoList d := rfl

/-- The stored photo list the handlers start from matches the
spec-side description. -/
theorem currentPhotoList_eq_spec (d : Doc) :
    currentPhotoList d = storedPhotoListSpec d := by
  unfold currentPhotoList storedPhotoListSpec
  cases hv : d.get? "photo_urls" with
  | none => rfl
  | some v =>
    cases v with
    | str s => rfl
    | list l =>
      cases l with
      | nil => rfl
      | cons x xs => simp
    | none => rfl

/-- Updating a present document rewrites exactly that entry. -/
theorem getDoc_updateDoc_self (c : Coll) (id : String) (upd d : Doc)
    (h : Coll.getDoc c id = some d) :
    Coll.getDoc (Coll.updateDoc c id upd) id = some (dictUpdate d upd) := by
  induction c with
  | nil => simp [Coll.getDoc] at h
  | cons p ps ih =>
    rcases p with ⟨k, v⟩
    by_cases hk : k = id
    · subst hk
      have hvd : v = d := by
        have : some v = some d := by
          simpa [Coll.getDoc, List.lookup_cons] using h
        exact Option.some.inj this
      subst hvd
      simp [Coll.updateDoc, Coll.getDoc, List.lookup_cons]
    · have hbeq : (id == k) = false := beq_eq_false_iff_ne.mpr (fun e => hk e.symm)
      have hbeq2 : (k == id) = false := beq_eq_false_iff_ne.mpr hk
      have hps : Coll.getDoc ps id = some d := by
        simpa [Coll.getDoc, List.lookup_cons, hbeq] using h
      simp only [Coll.updateDoc, List.map_cons]
      rw [if_neg (by simp [hbeq2])]
      show Coll.getDoc ((k, v) :: Coll.updateDoc ps id upd) id = some (dictUpdate d upd)
      simpa [Coll.getDoc, List.lookup_cons, hbeq] using ih hps

/-- A key found in the update part of a merged dict is found in the
merge. -/
theorem get?_append_left (u d : Doc) (k : String) (v : Val)
    (h : Doc.get? u k = some v) : Doc.get? (u ++ d) k = some v := by
  induction u with
  | nil => simp [Doc.get?] at h
  | cons p ps ih =>
    rcases p with ⟨a, b⟩
    by_cases hk : (k == a)
    · simp [Doc.get?, List.lookup_cons, hk] at h ⊢
      exact h
    · have hb : (k == a) = false := by simpa using hk
      simp only [Doc.get?, List.cons_append, List.lookup_cons, hb] at h ⊢
      exact ih h

/-- The photo_urls entry of the written buyer update. -/
theorem buyerEditWritten_photo_urls (form : Form) (sess : Session) (now : String)
    (photos : List String) :
    Doc.get? (buyerEditWritten form sess now photos) "photo_urls" = some (Val.list photos) := rfl

/-- The photo_url entry of the written buyer update. -/
theorem buyerEditWritten_photo_url (form : Form) (sess : Session) (now : String)
    (photos : List String) :
    Doc.get? (buyerEditWritten form sess now photos) "photo_url"
      = some (Val.str (photos.headD "")) := rfl

/-- The photo_urls entry of the written seller update. -/
theorem sellerEditWritten_photo_urls (form : Form) (sess : Session) (now : String)
    (photos : List String) :
    Doc.get? (sellerEditWritten form sess now photos) "photo_urls" = some (Val.list photos) := rfl

/-- The photo_url entry of the written seller update. -/
theorem sellerEditWritten_photo_url (form : Form) (sess : Session) (now : String)
    (photos : List String) :
    Doc.get? (sellerEditWritten form sess now photos) "photo_url"
      = some (Val.str (photos.headD "")) := rfl

/-- With storage up and every file decodable, the upload loop of the
handlers cannot raise: it extends the accumulator with exactly the
spec-side upload URLs. -/
theorem uploadPhotosFold_ok (folder oid : String) (files : List UploadFile) :
    ∀ (acc : List String) (stg : Storage), stg.failUpload = false →
      (∀ f ∈ files, f.decodeFails = false) →
      ∃ stg2, uploadPhotosFold folder oid files acc stg
          = Except.ok (acc ++ uploadedUrlsSpec folder oid files, stg2)
        ∧ stg2.failUpload = false := by
  induction files with
  | nil =>
    intro acc stg hs _
    exact ⟨stg, by simp [uploadPhotosFold, uploadedUrlsSpec], hs⟩
  | cons f fs ih =>
    intro acc stg hs hd
    have hdf : f.decodeFails = false := hd f (List.mem_cons_self f fs)
    have hdfs : ∀ g ∈ fs, g.decodeFails = false := fun g hg => hd g (List.mem_cons_of_mem f hg)
    by_cases h1 : f.filename = ""
    · obtain ⟨stg2, heq, hs2⟩ := ih acc stg hs hdfs
      refine ⟨stg2, ?_, hs2⟩
      simp [uploadPhotosFold, h1, uploadedUrlsSpec, List.filterMap_cons] at heq ⊢
      exact heq
    · by_cases h2 : pyIn "." f.filename
      · by_cases h3 : lastExt f.filename ∈ ALLOWED_IMAGE_EXTENSIONS
        · obtain ⟨stg2, heq, hs2⟩ :=
            ih (acc ++ [publicUrl (blobPathOf folder oid f)])
              { stg with blobs := blobPathOf folder oid f :: stg.blobs } hs hdfs
          refine ⟨stg2, ?_, hs2⟩
          simp [uploadPhotosFold, h1, upload_image_to_storage, h2, h3, hdf, hs,
            uploadedUrlsSpec, List.filterMap_cons, List.append_assoc] at heq ⊢
          exact heq
        · obtain ⟨stg2, heq, hs2⟩ := ih acc stg hs hdfs
          refine ⟨stg2, ?_, hs2⟩
          simp [uploadPhotosFold, h1, upload_image_to_storage, h2, h3,
            uploadedUrlsSpec, List.filterMap_cons] at heq ⊢
          exact heq
      · obtain ⟨stg2, heq, hs2⟩ := ih acc stg hs hdfs
        refine ⟨stg2, ?_, hs2⟩
        simp [uploadPhotosFold, h1, upload_image_to_storage, h2,
          uploadedUrlsSpec, List.filterMap_cons] at heq ⊢
        exact heq

/-- Refinement of the buyer_edit photo reconciliation against the
spec-side description, for requests whose uploads succeed. -/
theorem buyer_edit_photo_refinement (sess : Session) (now : String) (form : Form)
    (files : List UploadFile) (bid : String) (st : St) (stored : Doc)
    (hdoc : Coll.getDoc st.buyers bid = some stored)
    (hname : ¬ fget form "name" = "")
    (hup : st.storage.failUpload = false)
    (hdec : ∀ f ∈ files, f.decodeFails = false) :
    ∃ st2, buyer_edit_post sess now form files bid st
        = Except.ok (HResp.redirect "buyer_detail", st2)
      ∧ (Coll.getDoc st2.buyers bid).bind (fun d => d.get? "photo_urls")
          = some (Val.list (photoReconcileSpec (storedPhotoListSpec stored)
              (fgetlist form "delete_photos") (uploadedUrlsSpec "buyers" bid files)))
      ∧ (Coll.getDoc st2.buyers bid).bind (fun d => d.get? "photo_url")
          = some (Val.str ((photoReconcileSpec (storedPhotoListSpec stored)
              (fgetlist form "delete_photos") (uploadedUrlsSpec "buyers" bid files)).headD "")) := by
  obtain ⟨stg2, hfold, hs2⟩ :=
    uploadPhotosFold_ok "buyers" bid files
      (((currentPhotoList (doc_to_dict bid stored)).enum.filter
          (fun p => !((deleteIndexList (fgetlist form "delete_photos")).contains ((p.1 : Int))))).map
        (fun p => p.2))
      st.storage hup hdec
  have hK : (((currentPhotoList (doc_to_dict bid stored)).enum.filter
        (fun p => !((deleteIndexList (fgetlist form "delete_photos")).contains ((p.1 : Int))))).map
      (fun p => p.2))
      = removeAtIndexesSpec (deleteIndexList (fgetlist form "delete_photos")) 0
          (storedPhotoListSpec stored) := by
    rw [currentPhotoList_doc_to_dict, ← currentPhotoList_eq_spec]
    exact kept_eq_removeAtIndexesSpec _ _ 0
  simp only [buyer_edit_post, hdoc, hname, if_false]
  rw [hfold]
  refine ⟨_, rfl, ?_, ?_⟩
  · have hget := getDoc_updateDoc_self st.buyers bid
      (buyerEditWritten form sess now
        ((((currentPhotoList (doc_to_dict bid stored)).enum.filter
            (fun p => !((deleteIndexList (fgetlist form "delete_photos")).contains ((p.1 : Int))))).map
          (fun p => p.2)) ++ uploadedUrlsSpec "buyers" bid files))
      stored hdoc
    simp only [hget, Option.some_bind, dictUpdate]
    rw [get?_append_left _ _ _ _ (buyerEditWritten_photo_urls _ _ _ _)]
    rw [hK]
    rfl
  · have hget := getDoc_updateDoc_self st.buyers bid
      (buyerEditWritten form sess now
        ((((currentPhotoList (doc_to_dict bid stored)).enum.filter
            (fun p => !((deleteIndexList (fgetlist form "delete_photos")).contains ((p.1 : Int))))).map
          (fun p => p.2)) ++ uploadedUrlsSpec "buyers" bid files))
      stored hdoc
    simp only [hget, Option.some_bind, dictUpdate]
    rw [get?_append_left _ _ _ _ (buyerEditWritten_photo_url _ _ _ _)]
    rw [hK]
    rfl

/-- Refinement of the seller_edit photo reconciliation against the
spec-side description, for requests whose uploads succeed. -/
theorem seller_edit_photo_refinement (sess : Session) (now : String) (form : Form)
    (files : List UploadFile) (sid : String) (st : St) (stored : Doc)
    (hdoc : Coll.getDoc st.sellers sid = some stored)
    (hup : st.storage.failUpload = false)
    (hdec : ∀ f ∈ files, f.decodeFails = false) :
    ∃ st2, seller_edit_post sess now form files sid st
        = Except.ok (HResp.redirect "seller_detail", st2)
      ∧ (Coll.getDoc st2.sellers sid).bind (fun d => d.get? "photo_urls")
          = some (Val.list (photoReconcileSpec (storedPhotoListSpec stored)
              (fgetlist form "delete_photos") (uploadedUrlsSpec "sellers" sid files)))
      ∧ (Coll.getDoc st2.sellers sid).bind (fun d => d.get? "photo_url")
          = some (Val.str ((photoReconcileSpec (storedPhotoListSpec stored)
              (fgetlist form "delete_photos") (uploadedUrlsSpec "sellers" sid files)).headD "")) := by
  obtain ⟨stg2, hfold, hs2⟩ :=
    uploadPhotosFold_ok "sellers" sid files
      (((currentPhotoList (doc_to_dict sid stored)).enum.filter
          (fun p => !((deleteIndexList (fgetlist form "delete_photos")).contains ((p.1 : Int))))).map
        (fun p => p.2))
      st.storage hup hdec
  have hK : (((currentPhotoList (doc_to_dict sid stored)).enum.filter
        (fun p => !((deleteIndexList (fgetlist form "delete_photos")).contains ((p.1 : Int))))).map
      (fun p => p.2))
      = removeAtIndexesSpec (deleteIndexList (fgetlist form "delete_photos")) 0
          (storedPhotoListSpec stored) := by
    rw [currentPhotoList_doc_to_dict, ← currentPhotoList_eq_spec]
    exact kept_eq_removeAtIndexesSpec _ _ 0
  simp only [seller_edit_post, hdoc]
  rw [hfold]
  refine ⟨_, rfl, ?_, ?_⟩
  · have hget := getDoc_updateDoc_self st.sellers sid
      (sellerEditWritten form sess now
        ((((currentPhotoList (doc_to_dict sid stored)).enum.filter
            (fun p => !((deleteIndexList (fgetlist form "delete_photos")).contains ((p.1 : Int))))).map
          (fun p => p.2)) ++ uploadedUrlsSpec "sellers" sid files))
      stored hdoc
    simp only [hget, Option.some_bind, dictUpdate]
    rw [get?_append_left _ _ _ _ (sellerEditWritten_photo_urls _ _ _ _)]
    rw [hK]
    rfl
  · have hget := getDoc_updateDoc_self st.sellers sid
      (sellerEditWritten form sess now
        ((((currentPhotoList (doc_to_dict sid stored)).enum.filter
            (fun p => !((deleteIndexList (fgetlist form "delete_photos")).contains ((p.1 : Int))))).map
          (fun p => p.2)) ++ uploadedUrlsSpec "sellers" sid files))
      stored hdoc
    simp only [hget, Option.some_bind, dictUpdate]
    rw [get?_append_left _ _ _ _ (sellerEditWritten_photo_url _ _ _ _)]
    rw [hK]
    rfl

/-- A stable descending sort, reversed, is the ascending sort when
the keys are pairwise distinct. -/
theorem sortDesc_reverse_eq_asc (key : Doc → String) (l : List Doc)
    (h : l.Pairwise (fun a b => key a ≠ key b)) :
    (sortByKeyDesc key l).reverse = sortByKeyAsc key l := by
  have htrans : ∀ a b c : Doc, decide (key a ≤ key b) → decide (key b ≤ key c) →
      decide (key a ≤ key c) := by
    intro a b c h1 h2
    simp only [decide_eq_true_eq] at *
    exact le_trans h1 h2
  have htrans2 : ∀ a b c : Doc, decide (key b ≤ key a) → decide (key c ≤ key b) →
      decide (key c ≤ key a) := by
    intro a b c h1 h2
    simp only [decide_eq_true_eq] at *
    exact le_trans h2 h1
  have htotal : ∀ a b : Doc, decide (key a ≤ key b) || decide (key b ≤ key a) := by
    intro a b
    simpa [Bool.or_eq_true, decide_eq_true_eq] using le_total (key a) (key b)
  have pAsc : List.Perm (sortByKeyAsc key l) l := List.mergeSort_perm l _
  have pDesc : List.Perm (sortByKeyDesc key l) l := List.mergeSort_perm l _
  have pRevL : List.Perm (sortByKeyDesc key l).reverse l := (List.reverse_perm _).trans pDesc
  have pRev : List.Perm (sortByKeyDesc key l).reverse (sortByKeyAsc key l) := pRevL.trans pAsc.symm
  have sAsc : (sortByKeyAsc key l).Pairwise (fun a b => key a ≤ key b) := by
    have hp := List.sorted_mergeSort htrans htotal l
    exact hp.imp (fun hab => by simpa using hab)
  have sDesc : (sortByKeyDesc key l).Pairwise (fun a b => key b ≤ key a) := by
    have hp := @List.sorted_mergeSort Doc (fun a b => decide (key b ≤ key a))
      (fun a b c h1 h2 => htrans2 a b c h1 h2) ?_ l
    · exact hp.imp (fun hab => by simpa using hab)
    · intro a b
      simpa [Bool.or_eq_true, decide_eq_true_eq] using le_total (key b) (key a)
  have sRev : (sortByKeyDesc key l).reverse.Pairwise (fun a b => key a ≤ key b) :=
    List.pairwise_reverse.mpr sDesc
  have hsymm : ∀ {x y : Doc}, key x ≠ key y → key y ≠ key x := fun hxy => hxy.symm
  have hNeAsc : (sortByKeyAsc key l).Pairwise (fun a b => key a ≠ key b) :=
    (List.Perm.pairwise_iff hsymm pAsc).mpr h
  have hNeRev : (sortByKeyDesc key l).reverse.Pairwise (fun a b => key a ≠ key b) :=
    (List.Perm.pairwise_iff hsymm pRevL).mpr h
  have sAscLt : (sortByKeyAsc key l).Pairwise (fun a b => key a < key b) :=
    (sAsc.and hNeAsc).imp (fun hab => lt_of_le_of_ne hab.1 hab.2)
  have sRevLt : (sortByKeyDesc key l).reverse.Pairwise (fun a b => key a < key b) :=
    (sRev.and hNeRev).imp (fun hab => lt_of_le_of_ne hab.1 hab.2)
  haveI : IsAntisymm Doc (fun a b => key a < key b) :=
    ⟨fun a b h1 h2 => absurd (lt_trans h1 h2) (lt_irrefl _)⟩
  exact List.eq_of_perm_of_sorted pRev sRevLt sAscLt

/-- The keyword filter only drops records. -/
theorem keywordFilterNamePhone_subset (q : String) (l : List Doc) (x : Doc)
    (h : x ∈ keywordFilterNamePhone q l) : x ∈ l := by
  unfold keywordFilterNamePhone at h
  split at h
  · exact h
  · exact (List.mem_filter.mp h).1

/-- The enum-field filter only drops records. -/
theorem eqFieldFilter_subset (field value : String) (l : List Doc) (x : Doc)
    (h : x ∈ eqFieldFilter field value l) : x ∈ l := by
  unfold eqFieldFilter at h
  split at h
  · exact h
  · exact (List.mem_filter.mp h).1

/-- The source substring filter only drops records. -/
theorem sourceFilter_subset (source : String) (l : List Doc) (x : Doc)
    (h : x ∈ sourceFilter source l) : x ∈ l := by
  unfold sourceFilter at h
  split at h
  · exact h
  · exact (List.mem_filter.mp h).1

/-- The blog keyword filter only drops records. -/
theorem blogKeywordFilter_subset (q : String) (l : List Doc) (x : Doc)
    (h : x ∈ blogKeywordFilter q l) : x ∈ l := by
  unfold blogKeywordFilter at h
  split at h
  · exact h
  · exact (List.mem_filter.mp h).1

/-- The blog category filter only drops records. -/
theorem blogCategoryFilter_subset (category : String) (l : List Doc) (x : Doc)
    (h : x ∈ blogCategoryFilter category l) : x ∈ l := by
  unfold blogCategoryFilter at h
  split at h
  · exact h
  · exact (List.mem_filter.mp h).1

/-- Every post the blog listing renders is the normalization of a
stored document. -/
theorem mem_blogIndexPosts (a : BlogArgs) (c : Coll) (p : Doc)
    (h : p ∈ blogIndexPosts a c) :
    ∃ pr, pr ∈ c ∧ p = normalizePostCats (doc_to_dict pr.1 pr.2) := by
  unfold blogIndexPosts at h
  have h1 : p ∈ eqFieldFilter "status" (pyStrip a.status)
      (blogCategoryFilter (pyStrip a.category)
        (blogKeywordFilter (pyStrip a.q)
          ((c.map (fun pr => doc_to_dict pr.1 pr.2)).map normalizePostCats))) := by
    by_cases hs : a.sort_by = "created_at_asc"
    · simpa [hs, sortByKeyAsc, List.mem_mergeSort] using h
    · simpa [hs, sortByKeyDesc, List.mem_mergeSort] using h
  have h2 := blogKeywordFilter_subset _ _ _
    (blogCategoryFilter_subset _ _ _ (eqFieldFilter_subset _ _ _ _ h1))
  obtain ⟨q1, hq1, hq2⟩ := List.mem_map.mp h2
  obtain ⟨pr, hpr, hpr2⟩ := List.mem_map.mp hq1
  exact ⟨pr, hpr, by rw [← hq2, ← hpr2]⟩

/-- After normalization the categories entry is always a list. -/
theorem normalizePostCats_isList (p : Doc) :
    ∃ l, (normalizePostCats p).get? "categories" = some (Val.list l) := by
  unfold normalizePostCats
  cases hv : p.get? "categories" with
  | none => exact ⟨_, rfl⟩
  | some v =>
    cases v with
    | str s => exact ⟨_, rfl⟩
    | list l => exact ⟨l, hv⟩
    | none => exact ⟨_, rfl⟩

/-! ## Example fixtures for witnesses and counterexamples -/

/-- A logged-in session. -/
def exSession : Session := ⟨some "u1", some "Amy"⟩

/-- A session with no verified user id. -/
def noSession : Session := ⟨Option.none, Option.none⟩

/-- A healthy storage backend with no blobs. -/
def exStorage : Storage := ⟨[], false, false⟩

/-- A small store: one buyer, one seller, one followup each, one blog
post with a legacy scalar category. -/
def exSt : St :=
  { buyers := [("b1", [("name", Val.str "王小明"), ("created_at", Val.str "2024-01-01T10:00:00")])]
    sellers := [("s1", [("name", Val.str "陳大文"), ("photo_urls", Val.list ["u1", "u2", "u3"])])]
    buyer_followups := [("f1", [("buyer_id", Val.str "b1"), ("channel", Val.str "line")]),
                        ("f2", [("buyer_id", Val.str "b2"), ("channel", Val.str "tel")])]
    seller_followups := [("g1", [("seller_id", Val.str "s1")])]
    blog_posts := [("p1", [("title", Val.str "第一篇"), ("category", Val.str "老分類"),
                           ("created_at", Val.str "2024-02-02T08:00:00")])]
    storage := exStorage }

/-- A form whose required name field is blank after trimming. -/
def blankNameForm : Form := [("name", "  "), ("phone", "0912345678")]

/-- A form whose required title field is blank. -/
def blankTitleForm : Form := [("title", ""), ("content", "hello"), ("tags", "x")]

/-! ## Claims -/

/-- C1 (amended): on a blank required field, buyers-create and
sellers-create leave the store unchanged but flash and redirect to the
list (discarding the submitted values); blog-create, buyer-edit and
blog-edit leave the store unchanged and re-render the form with the
submitted values preserved (the last conjunct: each buyer-edit form
field survives into the re-rendered context); seller-edit performs no
required-field check at all (see the counterexample). -/
theorem c1_blank_required_field :
    (∀ (sess : Session) (now : String) (form : Form) (file : Option UploadFile)
        (newId : String) (st : St), fget form "name" = "" →
        buyers_new sess now form file newId st = Except.ok (HResp.redirect "buyers", st))
    ∧ (∀ (sess : Session) (now : String) (form : Form) (files : List UploadFile)
        (newId : String) (st : St), fget form "name" = "" →
        sellers_new sess now form files newId st = Except.ok (HResp.redirect "sellers", st))
    ∧ (∀ (sess : Session) (now : String) (form : Form) (newId : String) (st : St),
        fget form "title" = "" →
        blog_new_post sess now form newId st
          = (HResp.renderDoc "blog_form.html" (formToDoc form), st))
    ∧ (∀ (sess : Session) (now : String) (form : Form) (files : List UploadFile)
        (bid : String) (st : St) (stored : Doc),
        Coll.getDoc st.buyers bid = some stored → fget form "name" = "" →
        buyer_edit_post sess now form files bid st
          = Except.ok (HResp.renderDoc "buyer_edit.html"
              (dictUpdate (doc_to_dict bid stored) (buyerEditFormFields form)), st))
    ∧ (∀ (sess : Session) (now : String) (form : Form) (pid : String) (st : St) (d : Doc),
        Coll.getDoc st.blog_posts pid = some d → fget form "title" = "" →
        blog_edit_post sess now form pid st
          = (HResp.renderDoc "blog_form.html"
              (dictUpdate (normalizePostCats (doc_to_dict pid d)) (blogEditInvalidCtx form)), st))
    ∧ (∀ (form : Form) (buyer : Doc) (k : String),
        k ∈ ["name", "phone", "email", "line_id", "source", "level", "intent_type",
          "rent_min", "rent_max", "budget_min", "budget_max", "preferred_areas",
          "property_type", "room_range", "car_need", "job", "family_info",
          "requirement_must", "requirement_nice", "other_background", "note", "stage"] →
        Doc.get? (dictUpdate buyer (buyerEditFormFields form)) k = some (Val.str (fget form k))) := by
  refine ⟨?_, ?_, ?_, ?_, ?_, ?_⟩
  · intro sess now form file newId st h
    simp [buyers_new, h]
  · intro sess now form files newId st h
    simp [sellers_new, h]
  · intro sess now form newId st h
    simp [blog_new_post, h]
  · intro sess now form files bid st stored hdoc h
    simp [buyer_edit_post, hdoc, h]
  · intro sess now form pid st d hdoc h
    simp [blog_edit_post, hdoc, h]
  · intro form buyer k hk
    fin_cases hk <;> rfl

/-- C1 witness: concrete blank-required-field requests behaving as
the amended claim states. -/
theorem c1_blank_required_field_witness :
    buyers_new exSession "T1" blankNameForm Option.none "nb" exSt
        = Except.ok (HResp.redirect "buyers", exSt)
    ∧ sellers_new exSession "T1" blankNameForm [] "ns" exSt
        = Except.ok (HResp.redirect "sellers", exSt)
    ∧ blog_new_post exSession "T1" blankTitleForm "np" exSt
        = (HResp.renderDoc "blog_form.html" (formToDoc blankTitleForm), exSt)
    ∧ buyer_edit_post exSession "T1" blankNameForm [] "b1" exSt
        = Except.ok (HResp.renderDoc "buyer_edit.html"
            (dictUpdate (doc_to_dict "b1" [("name", Val.str "王小明"),
                ("created_at", Val.str "2024-01-01T10:00:00")])
              (buyerEditFormFields blankNameForm)), exSt)
    ∧ blog_edit_post exSession "T1" blankTitleForm "p1" exSt
        = (HResp.renderDoc "blog_form.html"
            (dictUpdate (normalizePostCats (doc_to_dict "p1" [("title", Val.str "第一篇"),
                ("category", Val.str "老分類"), ("created_at", Val.str "2024-02-02T08:00:00")]))
              (blogEditInvalidCtx blankTitleForm)), exSt)
    ∧ Doc.get? (dictUpdate [] (buyerEditFormFields blankNameForm)) "phone"
        = some (Val.str "0912345678") := by
  obtain ⟨h1, h2, h3, h4, h5, h6⟩ := c1_blank_required_field
  exact ⟨h1 _ _ _ _ _ _ (by decide), h2 _ _ _ _ _ _ (by decide), h3 _ _ _ _ _ (by decide),
    h4 _ _ _ _ _ _ _ (by decide) (by decide), h5 _ _ _ _ _ _ (by decide) (by decide),
    h6 _ _ "phone" (by simp)⟩

/-- C1 counterexample: a seller edit whose submitted name is blank
after trimming still modifies the stored document (the stored name
becomes the empty string), so the claim as stated fails on
seller-edit requests. -/
theorem c1_blank_required_field_counterexample :
    ((seller_edit_post exSession "T2" blankNameForm [] "s1" exSt).toOption.map
        (fun r => (Coll.getDoc r.2.sellers "s1").bind (fun d => d.get? "name")))
      = some (some (Val.str ""))
    ∧ (Coll.getDoc exSt.sellers "s1").bind (fun d => d.get? "name")
      = some (Val.str "陳大文") := by
  constructor
  · decide
  · decide

/-- C2 (amended): every route of team_me_firebase.py is wrapped in
login_required, and the wrapper answers a session without a user_id by
redirecting to the login form with the store untouched, never entering
the view; the blog routes carry no such wrapper and execute regardless
of the session — blog_delete, for instance, deletes the post for any
session whatsoever. -/
theorem c2_login_gate :
    (∀ (α : Type) (view : Session → α → St → HResp × St) (sess : Session) (a : α) (st : St),
        sess.user_id = Option.none →
        login_required view sess a st = (HResp.redirect "login", st))
    ∧ (∀ (α : Type) (view : Session → α → St → Except String (HResp × St))
        (sess : Session) (a : α) (st : St),
        sess.user_id = Option.none →
        login_requiredE view sess a st = Except.ok (HResp.redirect "login", st))
    ∧ (∀ (sess : Session) (pid : String) (st : St),
        blog_delete sess pid st
          = (HResp.redirect "blog_index",
              { st with blog_posts := Coll.deleteDoc st.blog_posts pid })) := by
  refine ⟨?_, ?_, ?_⟩
  · intro α view sess a st h
    simp [login_required, h]
  · intro α view sess a st h
    simp [login_requiredE, h]
  · intro sess pid st
    rfl

/-- C2 witness: concrete guarded routes answer a session with no user
id by a login redirect, state untouched. -/
theorem c2_login_gate_witness :
    buyers_route noSession ⟨"", "", "", "", "", "created_at_desc"⟩ exSt
        = (HResp.redirect "login", exSt)
    ∧ buyers_new_route noSession ("T1", blankNameForm, Option.none, "nb") exSt
        = Except.ok (HResp.redirect "login", exSt)
    ∧ buyer_delete_route noSession "b1" exSt = (HResp.redirect "login", exSt)
    ∧ download_buyers_route noSession () exSt = (HResp.redirect "login", exSt) := by
  obtain ⟨h1, h2, h3⟩ := c2_login_gate
  exact ⟨h1 _ _ _ _ _ rfl, h2 _ _ _ _ _ rfl, h1 _ _ _ _ _ rfl, h1 _ _ _ _ _ rfl⟩

/-- C2 counterexample: with no verified user id in the session,
blog_delete does not redirect to the login form; it deletes the stored
post, so a blog route both proceeds and writes without a login. -/
theorem c2_login_gate_counterexample :
    (blog_delete noSession "p1" exSt).1 ≠ HResp.redirect "login"
    ∧ (blog_delete noSession "p1" exSt).2.blog_posts = []
    ∧ exSt.blog_posts ≠ [] := by
  refine ⟨by decide, by decide, by decide⟩

/-- C3 (amended): storage deletion is best-effort and never raises —
a raising delete call and an unparsable URL both leave storage
unchanged; an upload validation failure (disallowed extension)
degrades silently, the record being written without a photo field;
but a decode failure during upload propagates as an exception and the
create request aborts with nothing written, contrary to the silent
degradation the claim describes for decode/upload errors (see the
counterexample). -/
theorem c3_storage_errors :
    (∀ (url : String) (stg : Storage), stg.failDelete = true →
        delete_storage_file_by_url url stg = stg)
    ∧ (∀ (url : String) (stg : Storage), parseStorageUrl url = Option.none →
        delete_storage_file_by_url url stg = stg)
    ∧ (∀ (sess : Session) (now : String) (form : Form) (f : UploadFile)
        (newId : String) (st : St),
        ¬ f.filename = "" → pyIn "." f.filename →
        ¬ lastExt f.filename ∈ ALLOWED_IMAGE_EXTENSIONS →
        ¬ fget form "name" = "" →
        buyers_new sess now form (some f) newId st
          = Except.ok (HResp.redirect "buyers",
              { st with buyers := Coll.setDoc st.buyers newId (buyersNewData form sess now) }))
    ∧ (∀ (sess : Session) (now : String) (form : Form) (f : UploadFile)
        (newId : String) (st : St),
        ¬ f.filename = "" → pyIn "." f.filename →
        lastExt f.filename ∈ ALLOWED_IMAGE_EXTENSIONS →
        f.decodeFails = true →
        ¬ fget form "name" = "" →
        buyers_new sess now form (some f) newId st = Except.error "image decode failed") := by
  refine ⟨?_, ?_, ?_, ?_⟩
  · intro url stg h
    unfold delete_storage_file_by_url
    split
    · rfl
    · split
      · rfl
      · split
        · simp [h]
        · rfl
  · intro url stg h
    unfold delete_storage_file_by_url
    split
    · rfl
    · rw [h]
  · intro sess now form f newId st hfn hdot hext hname
    simp [buyers_new, hname, upload_image_to_storage, hfn, hdot, hext]
  · intro sess now form f newId st hfn hdot hext hdec hname
    simp [buyers_new, hname, upload_image_to_storage, hfn, hdot, hext, hdec]

/-- C3 witness: a raising delete and an unparsable URL leave storage
unchanged; a create with a disallowed extension still writes the
record; a create with an undecodable image raises. -/
theorem c3_storage_errors_witness :
    delete_storage_file_by_url
        "https://storage.googleapis.com/b/sellers/x.jpg" ⟨["sellers/x.jpg"], true, false⟩
      = ⟨["sellers/x.jpg"], true, false⟩
    ∧ delete_storage_file_by_url "nonsense" exStorage = exStorage
    ∧ buyers_new exSession "T1" [("name", "王小明")]
        (some ⟨"virus.exe", "application/x-dosexec", false, "sfx"⟩) "nb" exSt
      = Except.ok (HResp.redirect "buyers",
          { exSt with buyers :=
              Coll.setDoc exSt.buyers "nb" (buyersNewData [("name", "王小明")] exSession "T1") })
    ∧ buyers_new exSession "T1" [("name", "王小明")]
        (some ⟨"pic.jpg", "image/jpeg", true, "sfx"⟩) "nb" exSt
      = Except.error "image decode failed" := by
  obtain ⟨h1, h2, h3, h4⟩ := c3_storage_errors
  exact ⟨h1 _ _ rfl, h2 _ _ (by decide),
    h3 _ _ _ _ _ _ (by decide) (by decide) (by decide) (by decide),
    h4 _ _ _ _ _ _ (by decide) (by decide) (by decide) rfl (by decide)⟩

/-- C3 counterexample: a create request with an image whose decode
fails raises out of the handler and writes nothing, instead of
logging and saving the record without the photo. -/
theorem c3_storage_errors_counterexample :
    buyers_new exSession "T1" [("name", "王小明")]
        (some ⟨"pic.jpg", "image/jpeg", true, "sfx"⟩) "nb9" exSt
      = Except.error "image decode failed" := by
  decide

/-- C4: after deleting a buyer (respectively a seller), no followup
document remains whose buyer_id (respectively seller_id) equals the
deleted parent id — the cascade delete_by_field scan removes every
match. -/
theorem c4_cascade_delete :
    (∀ (bid : String) (st : St) (p : String × Doc),
        p ∈ ((buyer_delete bid st).2).buyer_followups →
        ¬ (p.2.get? "buyer_id" = some (Val.str bid)))
    ∧ (∀ (sid : String) (st : St) (p : String × Doc),
        p ∈ ((seller_delete sid st).2).seller_followups →
        ¬ (p.2.get? "seller_id" = some (Val.str sid))) := by
  constructor
  · intro bid st p hp
    have h2 := (List.mem_filter.mp hp).2
    simpa using h2
  · intro sid st p hp
    have h2 := (List.mem_filter.mp hp).2
    simpa using h2

/-- C4 witness: deleting buyer b1 keeps the followup of b2 and no
remaining followup references b1. -/
theorem c4_cascade_delete_witness :
    (("f2", [("buyer_id", Val.str "b2"), ("channel", Val.str "tel")]) : String × Doc)
        ∈ ((buyer_delete "b1" exSt).2).buyer_followups
    ∧ ¬ (Doc.get? [("buyer_id", Val.str "b2"), ("channel", Val.str "tel")] "buyer_id"
        = some (Val.str "b1")) := by
  refine ⟨by decide, ?_⟩
  exact c4_cascade_delete.1 "b1" exSt
    ("f2", [("buyer_id", Val.str "b2"), ("channel", Val.str "tel")]) (by decide)

/-- C5 (amended): buyer, seller and blog-post edits write an update
containing the server clock updated_at and the acting user id and name
from the session (the blog defaulting the missing name); the followup
edit handlers, however, write only the five content fields and none of
the audit fields. -/
theorem c5_update_audit_fields :
    (∀ (form : Form) (sess : Session) (now : String) (photos : List String),
        Doc.get? (buyerEditWritten form sess now photos) "updated_at" = some (Val.str now)
        ∧ Doc.get? (buyerEditWritten form sess now photos) "updated_by_id"
            = some (valOfOpt sess.user_id)
        ∧ Doc.get? (buyerEditWritten form sess now photos) "updated_by_name"
            = some (valOfOpt sess.user_name))
    ∧ (∀ (form : Form) (sess : Session) (now : String) (photos : List String),
        Doc.get? (sellerEditWritten form sess now photos) "updated_at" = some (Val.str now)
        ∧ Doc.get? (sellerEditWritten form sess now photos) "updated_by_id"
            = some (valOfOpt sess.user_id)
        ∧ Doc.get? (sellerEditWritten form sess now photos) "updated_by_name"
            = some (valOfOpt sess.user_name))
    ∧ (∀ (form : Form) (sess : Session) (now : String),
        Doc.get? (blogEditUpdate form sess now) "updated_at" = some (Val.str now)
        ∧ Doc.get? (blogEditUpdate form sess now) "updated_by_id"
            = some (valOfOpt sess.user_id)
        ∧ Doc.get? (blogEditUpdate form sess now) "updated_by_name"
            = some (Val.str (sess.user_name.getD "系統")))
    ∧ (∀ (form : Form) (nowHM : String),
        Doc.get? (followupEditUpdate form nowHM) "updated_at" = Option.none
        ∧ Doc.get? (followupEditUpdate form nowHM) "updated_by_id" = Option.none
        ∧ Doc.get? (followupEditUpdate form nowHM) "updated_by_name" = Option.none) := by
  refine ⟨?_, ?_, ?_, ?_⟩
  · intro form sess now photos
    exact ⟨rfl, rfl, rfl⟩
  · intro form sess now photos
    exact ⟨rfl, rfl, rfl⟩
  · intro form sess now
    exact ⟨rfl, rfl, rfl⟩
  · intro form nowHM
    exact ⟨rfl, rfl, rfl⟩

/-- C5 counterexample: a successful followup edit leaves the stored
followup with no updated_at (and no updated_by fields), so followup
edits do not write the audit triple the claim asserts. -/
theorem c5_update_audit_fields_counterexample :
    (buyer_followup_edit_post [("channel", "tel")] "2024-03-03 10:00" "b1" "f1" exSt).1
      = HResp.redirect "buyer_detail"
    ∧ ((Coll.getDoc
          (buyer_followup_edit_post [("channel", "tel")] "2024-03-03 10:00" "b1" "f1" exSt).2.buyer_followups
          "f1").bind (fun d => d.get? "updated_at"))
      = Option.none := by
  refine ⟨by decide, by decide⟩

/-- C6: the blog list, detail and edit reads normalize the categories
of every rendered record to a list — every rendered record is the
pure normalization of a stored document and its categories entry is a
Val.list — while the store itself is returned unchanged, so the
stored legacy value is never mutated. -/
theorem c6_categories_normalized :
    (∀ (sess : Session) (a : BlogArgs) (st : St),
        (blog_index sess a st).2 = st
        ∧ ∀ p ∈ blogIndexPosts a st.blog_posts,
            (∃ pr, pr ∈ st.blog_posts ∧ p = normalizePostCats (doc_to_dict pr.1 pr.2))
            ∧ ∃ l, p.get? "categories" = some (Val.list l))
    ∧ (∀ (sess : Session) (pid : String) (st : St) (d : Doc),
        Coll.getDoc st.blog_posts pid = some d →
        blog_detail sess pid st
            = (HResp.renderDoc "blog_detail.html" (normalizePostCats (doc_to_dict pid d)), st)
        ∧ ∃ l, (normalizePostCats (doc_to_dict pid d)).get? "categories" = some (Val.list l))
    ∧ (∀ (sess : Session) (pid : String) (st : St) (d : Doc),
        Coll.getDoc st.blog_posts pid = some d →
        blog_edit_get sess pid st
            = (HResp.renderDoc "blog_form.html" (normalizePostCats (doc_to_dict pid d)), st)
        ∧ ∃ l, (normalizePostCats (doc_to_dict pid d)).get? "categories" = some (Val.list l)) := by
  refine ⟨?_, ?_, ?_⟩
  · intro sess a st
    refine ⟨rfl, ?_⟩
    intro p hp
    obtain ⟨pr, hpr, hpe⟩ := mem_blogIndexPosts a st.blog_posts p hp
    refine ⟨⟨pr, hpr, hpe⟩, ?_⟩
    rw [hpe]
    exact normalizePostCats_isList _
  · intro sess pid st d hdoc
    constructor
    · simp [blog_detail, hdoc]
    · exact normalizePostCats_isList _
  · intro sess pid st d hdoc
    constructor
    · simp [blog_edit_get, hdoc]
    · exact normalizePostCats_isList _

/-- C6 witness: the store of the fixtures holds a legacy scalar
category; the listing and the detail read render it as a singleton
list without touching the store. -/
theorem c6_categories_normalized_witness :
    (blog_index exSession ⟨"", "", "", "created_at_desc"⟩ exSt).2 = exSt
    ∧ ((normalizePostCats (doc_to_dict "p1"
          [("title", Val.str "第一篇"), ("category", Val.str "老分類"),
           ("created_at", Val.str "2024-02-02T08:00:00")])).get? "categories"
        = some (Val.list ["老分類"]))
    ∧ blog_detail exSession "p1" exSt
        = (HResp.renderDoc "blog_detail.html" (normalizePostCats (doc_to_dict "p1"
            [("title", Val.str "第一篇"), ("category", Val.str "老分類"),
             ("created_at", Val.str "2024-02-02T08:00:00")])), exSt) := by
  obtain ⟨h1, h2, h3⟩ := c6_categories_normalized
  exact ⟨(h1 exSession ⟨"", "", "", "created_at_desc"⟩ exSt).1, by decide,
    (h2 exSession "p1" exSt _ (by decide)).1⟩

/-- C7: on a record list whose created_at keys are pairwise distinct,
the created_at_desc sort of the listing handlers, reversed, equals the
created_at_asc sort. -/
theorem c7_sort_reverse (l : List Doc)
    (h : l.Pairwise (fun a b => parse_created_at a ≠ parse_created_at b)) :
    (sortDispatch "created_at_desc" l).reverse = sortDispatch "created_at_asc" l := by
  have hd : sortDispatch "created_at_desc" l = sortByKeyDesc parse_created_at l := by
    simp [sortDispatch]
  have ha : sortDispatch "created_at_asc" l = sortByKeyAsc parse_created_at l := by
    simp [sortDispatch]
  rw [hd, ha]
  exact sortDesc_reverse_eq_asc parse_created_at l h

/-- C7 witness: a concrete three-record list with distinct
created_at keys. -/
theorem c7_sort_reverse_witness :
    ([([("created_at", Val.str "2024-01-02")] : Doc),
      [("created_at", Val.str "2024-01-01")],
      [("created_at", Val.str "2024-01-03")]].Pairwise
        (fun a b => parse_created_at a ≠ parse_created_at b))
    ∧ (sortDispatch "created_at_desc"
        [[("created_at", Val.str "2024-01-02")],
         [("created_at", Val.str "2024-01-01")],
         [("created_at", Val.str "2024-01-03")]]).reverse
      = sortDispatch "created_at_asc"
        [[("created_at", Val.str "2024-01-02")],
         [("created_at", Val.str "2024-01-01")],
         [("created_at", Val.str "2024-01-03")]] := by
  refine ⟨by decide, ?_⟩
  exact c7_sort_reverse _ (by decide)

/-- C8: the keyword filters of the buyers / sellers listing and of the
blog listing are idempotent and only ever shrink the list. -/
theorem c8_keyword_filter :
    (∀ (q : String) (l : List Doc),
        keywordFilterNamePhone q (keywordFilterNamePhone q l) = keywordFilterNamePhone q l)
    ∧ (∀ (q : String) (l : List Doc), keywordFilterNamePhone q l ⊆ l)
    ∧ (∀ (q : String) (l : List Doc),
        blogKeywordFilter q (blogKeywordFilter q l) = blogKeywordFilter q l)
    ∧ (∀ (q : String) (l : List Doc), blogKeywordFilter q l ⊆ l) := by
  refine ⟨?_, ?_, ?_, ?_⟩
  · intro q l
    by_cases h : q = ""
    · simp [keywordFilterNamePhone, h]
    · simp [keywordFilterNamePhone, h, filter_self_idem]
  · intro q l x hx
    exact keywordFilterNamePhone_subset q l x hx
  · intro q l
    by_cases h : q = ""
    · simp [blogKeywordFilter, h]
    · simp [blogKeywordFilter, h, filter_self_idem]
  · intro q l x hx
    exact blogKeywordFilter_subset q l x hx

set_option maxRecDepth 4096 in
/-- C9: the CSV download of an empty buyers (respectively sellers)
collection is exactly the UTF-8 byte-order mark followed by the fixed
localized header row, with no data rows. -/
theorem c9_empty_csv :
    (∀ st : St, st.buyers = [] →
        (download_buyers st).1 = HResp.csvResp
          "﻿id,姓名,電話,Email,LINE ID,客源來源,客戶等級,進程,需求類型,預算最低(萬),預算最高(萬),租金最低,租金最高,偏好區域,產品類型,房數需求,車位需求,職業/收入,家庭成員/生活型態,必備條件(Must Have),加分條件(Nice to Have),背景補充,內部備註,建立時間,建立者,最後編輯時間,最後編輯者\r\n")
    ∧ (∀ st : St, st.sellers = [] →
        (download_sellers st).1 = HResp.csvResp
          "﻿id,姓名,電話,Email,LINE ID,物件地址,產品類型,客戶等級,進程,出售原因,期望售價(萬),可接受底價(萬),預計出售時程,目前使用狀態,委託到期日,內部備註,建立時間,建立者,最後編輯時間,最後編輯者\r\n") := by
  constructor
  · intro st h
    simp only [download_buyers, h]
    decide
  · intro st h
    simp only [download_sellers, h]
    decide

/-- C9 witness: the empty store yields exactly the two header-only
CSV bodies. -/
theorem c9_empty_csv_witness :
    (download_buyers ⟨[], [], [], [], [], exStorage⟩).1 = HResp.csvResp
      "﻿id,姓名,電話,Email,LINE ID,客源來源,客戶等級,進程,需求類型,預算最低(萬),預算最高(萬),租金最低,租金最高,偏好區域,產品類型,房數需求,車位需求,職業/收入,家庭成員/生活型態,必備條件(Must Have),加分條件(Nice to Have),背景補充,內部備註,建立時間,建立者,最後編輯時間,最後編輯者\r\n"
    ∧ (download_sellers ⟨[], [], [], [], [], exStorage⟩).1 = HResp.csvResp
      "﻿id,姓名,電話,Email,LINE ID,物件地址,產品類型,客戶等級,進程,出售原因,期望售價(萬),可接受底價(萬),預計出售時程,目前使用狀態,委託到期日,內部備註,建立時間,建立者,最後編輯時間,最後編輯者\r\n" := by
  obtain ⟨h1, h2⟩ := c9_empty_csv
  exact ⟨h1 _ rfl, h2 _ rfl⟩

/-- C10: the persisted photo_urls of a buyer or seller edit whose
uploads succeed equals exactly the spec-side reconciliation — stored
photos (photo_urls if non-empty, else the legacy singleton) with the
entries at the parseable submitted delete-indexes removed in order,
followed by the uploaded URLs — and the legacy photo_url is the first
element of that list, or the empty string. -/
theorem c10_photo_reconciliation :
    (∀ (sess : Session) (now : String) (form : Form) (files : List UploadFile)
        (bid : String) (st : St) (stored : Doc),
        Coll.getDoc st.buyers bid = some stored →
        ¬ fget form "name" = "" →
        st.storage.failUpload = false →
        (∀ f ∈ files, f.decodeFails = false) →
        ∃ st2, buyer_edit_post sess now form files bid st
            = Except.ok (HResp.redirect "buyer_detail", st2)
          ∧ (Coll.getDoc st2.buyers bid).bind (fun d => d.get? "photo_urls")
              = some (Val.list (photoReconcileSpec (storedPhotoListSpec stored)
                  (fgetlist form "delete_photos") (uploadedUrlsSpec "buyers" bid files)))
          ∧ (Coll.getDoc st2.buyers bid).bind (fun d => d.get? "photo_url")
              = some (Val.str ((photoReconcileSpec (storedPhotoListSpec stored)
                  (fgetlist form "delete_photos")
                  (uploadedUrlsSpec "buyers" bid files)).headD "")))
    ∧ (∀ (sess : Session) (now : String) (form : Form) (files : List UploadFile)
        (sid : String) (st : St) (stored : Doc),
        Coll.getDoc st.sellers sid = some stored →
        st.storage.failUpload = false →
        (∀ f ∈ files, f.decodeFails = false) →
        ∃ st2, seller_edit_post sess now form files sid st
            = Except.ok (HResp.redirect "seller_detail", st2)
          ∧ (Coll.getDoc st2.sellers sid).bind (fun d => d.get? "photo_urls")
              = some (Val.list (photoReconcileSpec (storedPhotoListSpec stored)
                  (fgetlist form "delete_photos") (uploadedUrlsSpec "sellers" sid files)))
          ∧ (Coll.getDoc st2.sellers sid).bind (fun d => d.get? "photo_url")
              = some (Val.str ((photoReconcileSpec (storedPhotoListSpec stored)
                  (fgetlist form "delete_photos")
                  (uploadedUrlsSpec "sellers" sid files)).headD ""))) := by
  constructor
  · intro sess now form files bid st stored hdoc hname hup hdec
    exact buyer_edit_photo_refinement sess now form files bid st stored hdoc hname hup hdec
  · intro sess now form files sid st stored hdoc hup hdec
    exact seller_edit_photo_refinement sess now form files sid st stored hdoc hup hdec

/-- A concrete edit form: keep name, delete photo indexes 1 and 2
(the token x is not an integer and is ignored), upload one jpg. -/
def c10Form : Form :=
  [("name", "王大明"), ("delete_photos", "1"), ("delete_photos", "x"),
   ("delete_photos", "+2")]

/-- The file uploaded in the C10 witness. -/
def c10File : UploadFile := ⟨"new.JPG", "image/jpeg", false, "ab12"⟩

/-- C10 witness: editing seller s1 (stored photos u1, u2, u3) with
delete tokens 1, x, +2 and one uploaded jpg persists exactly
u1 followed by the new public URL. -/
theorem c10_photo_reconciliation_witness :
    Coll.getDoc exSt.sellers "s1"
        = some [("name", Val.str "陳大文"), ("photo_urls", Val.list ["u1", "u2", "u3"])]
    ∧ photoReconcileSpec
        (storedPhotoListSpec [("name", Val.str "陳大文"), ("photo_urls", Val.list ["u1", "u2", "u3"])])
        (fgetlist c10Form "delete_photos") (uploadedUrlsSpec "sellers" "s1" [c10File])
      = ["u1", "https://storage.googleapis.com/team-me-98acf.firebasestorage.app/sellers/s1_ab12.jpg"]
    ∧ ∃ st2, seller_edit_post exSession "T9" c10Form [c10File] "s1" exSt
          = Except.ok (HResp.redirect "seller_detail", st2)
        ∧ (Coll.getDoc st2.sellers "s1").bind (fun d => d.get? "photo_urls")
            = some (Val.list (photoReconcileSpec
                (storedPhotoListSpec
                  [("name", Val.str "陳大文"), ("photo_urls", Val.list ["u1", "u2", "u3"])])
                (fgetlist c10Form "delete_photos") (uploadedUrlsSpec "sellers" "s1" [c10File])))
        ∧ (Coll.getDoc st2.sellers "s1").bind (fun d => d.get? "photo_url")
            = some (Val.str ((photoReconcileSpec
                (storedPhotoListSpec
                  [("name", Val.str "陳大文"), ("photo_urls", Val.list ["u1", "u2", "u3"])])
                (fgetlist c10Form "delete_photos")
                (uploadedUrlsSpec "sellers" "s1" [c10File])).headD "")) := by
  refine ⟨by decide, by decide, ?_⟩
  exact c10_photo_reconciliation.2 exSession "T9" c10Form [c10File] "s1" exSt
    [("name", Val.str "陳大文"), ("photo_urls", Val.list ["u1", "u2", "u3"])]
    (by decide) rfl (by decide)
